/-
Verification of the core of the react-native-offline-sync library.

The development shallowly embeds the reconciliation machinery of the
library — the sync orchestrator (`SyncEngine`), the queue manager
(`SyncQueueManager`), the push and pull pipelines (`PushSynchronizer`,
`PullSynchronizer`) and the network detector (`NetworkDetector`) — as
executable Lean definitions, and proves theorems about the
specification's claims against those definitions.

Modelling conventions:
* JavaScript numbers used as timestamps and counters are modelled as
  `Nat`; JavaScript truthiness on numbers (`0` is falsy) is modelled
  explicitly where the source relies on it.
* `null`/`undefined` fields are modelled as `Option`.
* Thrown exceptions are modelled with `Except`; code that catches all
  exceptions is modelled as a total function.
* The engine state objects passed to listeners are aliased mutable
  objects in the source.  To make aliasing observable, the engine model
  keeps a heap of all state objects ever allocated (`EngineHeap.objs`,
  in allocation order), the index of the current one (`cur`), and the
  list of object indices handed to listeners (`notifs`).
-/
import Mathlib

namespace OfflineSync

deriving instance DecidableEq for Except

/-! ### Engine state (types/index.ts, SyncEngineState / SyncResult) -/

/-- `SyncStatus` enum from `types/index.ts`. -/
inductive SyncStatus where
  | idle
  | syncing
  | error
  deriving DecidableEq, Repr, Inhabited

/-- `SyncEngineState` from `types/index.ts`: the observable engine state. -/
structure EngineState where
  status : SyncStatus
  lastSyncAt : Option Nat
  pendingChanges : Nat
  error : Option String
  isSyncing : Bool
  deriving DecidableEq, Repr, Inhabited

/-- `SyncStats` from `types/index.ts`. -/
structure SyncStats where
  pushedCount : Nat
  pulledCount : Nat
  failedCount : Nat
  duration : Nat
  deriving DecidableEq, Repr

/-- `SyncResult` from `types/index.ts`; `error` holds the error message. -/
structure SyncResult where
  success : Bool
  stats : SyncStats
  error : Option String
  deriving DecidableEq, Repr

/-- `Partial<SyncEngineState>` as passed to `SyncEngine.updateState`:
each field is present (`some`) or absent (`none`). -/
structure StateUpdate where
  status : Option SyncStatus := none
  lastSyncAt : Option (Option Nat) := none
  pendingChanges : Option Nat := none
  error : Option (Option String) := none
  isSyncing : Option Bool := none

/-- Spreading `{...this.state, ...updates}`: present fields of the
update overwrite the corresponding fields of the state. -/
def StateUpdate.applyTo (u : StateUpdate) (s : EngineState) : EngineState :=
  { status := u.status.getD s.status
    lastSyncAt := u.lastSyncAt.getD s.lastSyncAt
    pendingChanges := u.pendingChanges.getD s.pendingChanges
    error := u.error.getD s.error
    isSyncing := u.isSyncing.getD s.isSyncing }

/-- Heap of engine-state objects.  `objs` lists every state object ever
allocated, in allocation order; `cur` is the index of `this.state`;
`notifs` records, in order, the index of the object passed to the
listeners by each `notifyListeners()` call (the source passes
`this.state` itself, not a copy). -/
structure EngineHeap where
  objs : List EngineState
  cur : Nat
  notifs : List Nat
  deriving DecidableEq, Repr

/-- Read the state object at heap index `i`. -/
def EngineHeap.objAt (h : EngineHeap) (i : Nat) : EngineState :=
  (h.objs[i]?).getD default

/-- The object currently referenced by `this.state`. -/
def currentState (h : EngineHeap) : EngineState :=
  h.objAt h.cur

/-- `SyncEngine.updateState`: allocate a fresh object
`{...this.state, ...updates}`, repoint `this.state` at it, and notify
the listeners with (a reference to) the new object. -/
def updateState (h : EngineHeap) (u : StateUpdate) : EngineHeap :=
  { objs := h.objs ++ [u.applyTo (currentState h)]
    cur := h.objs.length
    notifs := h.notifs ++ [h.objs.length] }

/-- `SyncEngine.updatePendingCount`: `this.state.pendingChanges = count`
mutates the current state object in place and does not notify. -/
def updatePendingCount (h : EngineHeap) (count : Nat) : EngineHeap :=
  { h with objs := h.objs.set h.cur { currentState h with pendingChanges := count } }

/-- Engine state installed by the `SyncEngine` constructor. -/
def initialEngineState : EngineState :=
  { status := .idle, lastSyncAt := none, pendingChanges := 0
    error := none, isSyncing := false }

/-- Heap of a freshly constructed engine: one state object, no
notifications yet. -/
def initialEngineHeap : EngineHeap :=
  { objs := [initialEngineState], cur := 0, notifs := [] }

/-! ### SyncEngine.sync (SyncEngine.ts)

`sync()` interacts with the push and pull pipelines and with the queue
through `await`ed calls; the engine-level model abstracts each of those
calls by its outcome, supplied in `SyncRunInput`:
* `online` — the value of `networkDetector.isOnline()`;
* `pushResult` — outcome of `pushSynchronizer.push()` (`.error e` when
  it throws with message `e`, `.ok (pushed, failed)` otherwise);
* `pullResult` — outcome of `pullSynchronizer.pull()`;
* `pendingCountAfter` — the count returned by
  `queueManager.getPendingCount()` (which never throws: it returns 0 on
  lookup errors).
`t0` and `t1` are the values of the `now()` calls at entry and around
completion. -/

structure SyncRunInput where
  online : Bool
  pushResult : Except String (Nat × Nat)
  pullResult : Except String Nat
  pendingCountAfter : Nat

/-- Result of one `sync()` call: the returned `SyncResult`, the heap
afterwards, and whether `push()` / `pull()` (and hence the transports)
were invoked. -/
structure SyncOutcome where
  result : SyncResult
  heap : EngineHeap
  pushInvoked : Bool
  pullInvoked : Bool
  deriving DecidableEq, Repr

/-- The `catch` block of `SyncEngine.sync`: set `status: ERROR`,
`isSyncing: false`, record the error (which notifies listeners), and
return `success: false` with zeroed stats and the measured duration. -/
def syncCatch (h : EngineHeap) (msg : String) (pushI pullI : Bool)
    (t0 t1 : Nat) : SyncOutcome :=
  { result := ⟨false, ⟨0, 0, 0, t1 - t0⟩, some msg⟩
    heap := updateState h
      { status := some .error, isSyncing := some false, error := some (some msg) }
    pushInvoked := pushI
    pullInvoked := pullI }

/-- `SyncEngine.sync()`.  Guard order as in the source: the
already-in-progress check, then the offline check; each guard throws,
and the single `catch` block handles every throw (so even a guard
failure runs `updateState` and notifies listeners). -/
def sync (h : EngineHeap) (inp : SyncRunInput) (t0 t1 : Nat) : SyncOutcome :=
  if (currentState h).isSyncing then
    syncCatch h "Sync already in progress" false false t0 t1
  else if !inp.online then
    syncCatch h "Device is offline" false false t0 t1
  else
    let h1 := updateState h
      { status := some .syncing, isSyncing := some true, error := some none }
    match inp.pushResult with
    | .error e => syncCatch h1 e true false t0 t1
    | .ok (pushedN, failedN) =>
      match inp.pullResult with
      | .error e => syncCatch h1 e true true t0 t1
      | .ok pulledN =>
        let h2 := updatePendingCount h1 inp.pendingCountAfter
        let h3 := updateState h2
          { status := some .idle, lastSyncAt := some (some t1)
            isSyncing := some false, error := some none }
        { result := ⟨true, ⟨pushedN, pulledN, failedN, t1 - t0⟩, none⟩
          heap := h3
          pushInvoked := true
          pullInvoked := true }

/-! ### NetworkDetector (NetworkDetector.ts) -/

/-- `NetworkStatus` from `types/index.ts`; `isInternetReachable` is a
tri-state (`none` models `null`). -/
structure NetworkStatus where
  isConnected : Bool
  isInternetReachable : Option Bool
  type : Option String
  deriving DecidableEq, Repr

/-- Initial value of `NetworkDetector.currentStatus` (before
`initialize()` has fetched anything). -/
def initialNetworkStatus : NetworkStatus :=
  { isConnected := false, isInternetReachable := none, type := none }

/-- `NetworkDetector.isOnline()`:
`isConnected && isInternetReachable !== false`. -/
def isOnline (s : NetworkStatus) : Bool :=
  s.isConnected && !(s.isInternetReachable == some false)

/-! ### Sync queue (SyncQueueManager.ts)

Queue rows live in the `sync_queue` table of the local database.  The
queue is modelled as a list of items in insertion order; WatermelonDB's
`find` retrieves a row by its unique primary key (modelled by
`lookupQueue`, first match), `markAsDeleted` removes the row from every
subsequent query (modelled by removal), and `create` assigns a fresh
unique id (modelled by an explicit id argument; theorems that need it
assume the generated id is fresh, as the database guarantees). -/

/-- Field values of an opaque `Record<string, any>` payload. -/
inductive Value where
  | str (s : String)
  | num (n : Int)
  | boolean (b : Bool)
  | null
  deriving DecidableEq, Repr

/-- `SyncOperation` enum from `types/index.ts`. -/
inductive SyncOperation where
  | create
  | update
  | delete
  deriving DecidableEq, Repr

/-- `SyncQueueItem` from `types/index.ts` (the model columns of
`sync_queue`).  `createdAt`/`updatedAt` are populated automatically by
the database; the model stores the creation instant for both. -/
structure QueueItem where
  id : String
  operation : SyncOperation
  tableName : String
  recordId : String
  payload : List (String × Value)
  retryCount : Nat
  errorMessage : Option String
  createdAt : Nat
  updatedAt : Nat
  deriving DecidableEq, Repr

/-- Retrieve a queue row by primary key (`collection.find`). -/
def lookupQueue (q : List QueueItem) (id : String) : Option QueueItem :=
  q.find? (fun it => it.id = id)

/-- `SyncQueueManager.addToQueue`: create one row with
`retryCount = 0`, `errorMessage = null`. -/
def addToQueue (q : List QueueItem) (newId : String) (op : SyncOperation)
    (tableName recordId : String) (payload : List (String × Value))
    (now : Nat) : List QueueItem :=
  q ++ [{ id := newId, operation := op, tableName := tableName
          recordId := recordId, payload := payload, retryCount := 0
          errorMessage := none, createdAt := now, updatedAt := now }]

/-- `SyncQueueManager.getPendingItems`: rows with
`retry_count < maxRetries`, in insertion order. -/
def getPendingItems (q : List QueueItem) (maxRetries : Nat) : List QueueItem :=
  q.filter (fun it => it.retryCount < maxRetries)

/-- `SyncQueueManager.getFailedItems`: rows with
`retry_count >= maxRetries`. -/
def getFailedItems (q : List QueueItem) (maxRetries : Nat) : List QueueItem :=
  q.filter (fun it => maxRetries ≤ it.retryCount)

/-- `SyncQueueManager.getPendingCount`: `fetchCount` over the whole
table (all rows, pending and failed). -/
def getPendingCount (q : List QueueItem) : Nat :=
  q.length

/-- `SyncQueueManager.incrementRetry`: find the row (throwing
`Record not found` when absent) and update it with
`retryCount + 1` and the error message. -/
def incrementRetry (q : List QueueItem) (itemId errMsg : String) :
    Except String (List QueueItem) :=
  match lookupQueue q itemId with
  | none => .error "Record not found"
  | some _ => .ok (q.map (fun it =>
      if it.id = itemId
      then { it with retryCount := it.retryCount + 1, errorMessage := some errMsg }
      else it))

/-- `SyncQueueManager.markAsProcessed`: find the row (throwing when
absent) and delete it. -/
def markAsProcessed (q : List QueueItem) (itemId : String) :
    Except String (List QueueItem) :=
  match lookupQueue q itemId with
  | none => .error "Record not found"
  | some _ => .ok (q.filter (fun it => it.id != itemId))

/-- `SyncQueueManager.clearFailedItems`: delete every failed row;
return how many were deleted. -/
def clearFailedItems (q : List QueueItem) (maxRetries : Nat) :
    List QueueItem × Nat :=
  (q.filter (fun it => it.retryCount < maxRetries),
   (getFailedItems q maxRetries).length)

/-- `SyncQueueManager.clearAllItems`: delete every row. -/
def clearAllItems (q : List QueueItem) : List QueueItem × Nat :=
  ([], q.length)

/-- One invocation of a `SyncQueueManager` operation (the claim's
lifecycle alphabet: enqueue, pending, failed, count_all, ack, bump,
purge_failed, purge_all). -/
inductive QueueOp where
  | enqueue (newId : String) (op : SyncOperation) (tableName recordId : String)
      (payload : List (String × Value)) (now : Nat)
  | pendingQuery (maxRetries : Nat)
  | failedQuery (maxRetries : Nat)
  | countQuery
  | ack (itemId : String)
  | bump (itemId errMsg : String)
  | purgeFailed (maxRetries : Nat)
  | purgeAll

/-- Effect of one operation on the queue.  Queries do not mutate; a
throwing `ack`/`bump` (missing id) leaves the queue unchanged. -/
def stepQueue (op : QueueOp) (q : List QueueItem) : List QueueItem :=
  match op with
  | .enqueue newId o tn rid pl now0 => addToQueue q newId o tn rid pl now0
  | .pendingQuery _ => q
  | .failedQuery _ => q
  | .countQuery => q
  | .ack itemId => ((markAsProcessed q itemId).toOption).getD q
  | .bump itemId errMsg => ((incrementRetry q itemId errMsg).toOption).getD q
  | .purgeFailed maxRetries => (clearFailedItems q maxRetries).1
  | .purgeAll => (clearAllItems q).1

/-- Run a sequence of queue operations. -/
def runQueueOps : List QueueOp → List QueueItem → List QueueItem
  | [], q => q
  | op :: ops, q => runQueueOps ops (stepQueue op q)

/-- The database generates fresh unique primary keys: an `enqueue` is
valid when its id is absent from the queue at that moment. -/
def validOp : QueueOp → List QueueItem → Bool
  | .enqueue newId _ _ _ _ _, q => (lookupQueue q newId).isNone
  | _, _ => true

/-- A sequence of operations is valid when each one is. -/
def validOps : List QueueOp → List QueueItem → Bool
  | [], _ => true
  | op :: ops, q => validOp op q && validOps ops (stepQueue op q)

/-- An item is present throughout a run when it is still in the queue
after every step (its lifetime spans the whole run). -/
def presentThroughout : List QueueOp → List QueueItem → String → Bool
  | [], _, _ => true
  | op :: ops, q, id =>
    (lookupQueue (stepQueue op q) id).isSome
      && presentThroughout ops (stepQueue op q) id

/-- Well-formed queue: primary keys are unique. -/
def wfQueue (q : List QueueItem) : Prop :=
  (q.map (fun it => it.id)).Nodup

instance (q : List QueueItem) : Decidable (wfQueue q) :=
  inferInstanceAs (Decidable (List.Nodup _))

/-! ### Local record store (WatermelonDB collections)

A local record carries the sync metadata columns of
`syncMetadataColumns` plus its domain fields.  `markAsDeleted` is
WatermelonDB's soft delete: the row is retained but excluded from every
query and `find` (modelled by the `isDeleted` flag).  Domain field
names are assumed distinct from the metadata column names (the wire
contract never carries sync metadata as domain fields). -/

structure LocalRecord where
  id : String
  table : String
  server_id : Option String
  server_updated_at : Option Nat
  sync_status : Option String
  last_sync_error : Option String
  updated_at : Nat
  isDeleted : Bool
  fields : List (String × Value)
  deriving DecidableEq, Repr

/-- The tables of the local database, by name, plus a counter used to
model WatermelonDB's generation of fresh record ids at `create`. -/
structure DB where
  tables : List (String × List LocalRecord)
  nextId : Nat
  deriving DecidableEq, Repr

/-- `database.get(tableName)` (none models the throw on an unknown
table). -/
def getTable (db : DB) (name : String) : Option (List LocalRecord) :=
  (db.tables.find? (fun t => t.1 = name)).map (fun t => t.2)

/-- Write back the (first) table entry with the given name. -/
def setTableGo (name : String) (tbl : List LocalRecord) :
    List (String × List LocalRecord) → List (String × List LocalRecord)
  | [] => []
  | e :: rest =>
    if e.1 = name then (name, tbl) :: rest else e :: setTableGo name tbl rest

/-- The database with one table's contents replaced. -/
def setTable (db : DB) (name : String) (tbl : List LocalRecord) : DB :=
  { db with tables := setTableGo name tbl db.tables }

/-- `collection.query(Q.where('server_id', sid)).fetch()`: every
non-deleted record whose `server_id` equals `sid`. -/
def queryByServerId (tbl : List LocalRecord) (sid : String) : List LocalRecord :=
  tbl.filter (fun r => !r.isDeleted && r.server_id == some sid)

/-- `collection.find(recordId)`: the non-deleted record with that
primary key. -/
def findById (tbl : List LocalRecord) (rid : String) : Option LocalRecord :=
  (tbl.filter (fun r => !r.isDeleted)).find? (fun r => r.id == rid)

/-- `record.update(...)` on a fetched record: replace that row (the
first occurrence of the fetched record) by its updated version. -/
def replaceRecord (old new : LocalRecord) : List LocalRecord → List LocalRecord
  | [] => []
  | r :: rest => if r = old then new :: rest else r :: replaceRecord old new rest

/-! ### Logger (logger.ts)

`warn` and `error` always reach the console; `log` and `info` only when
the logger's debug flag is set.  The model records the console output
of the pipeline's logger as a list of entries. -/

inductive LogLevel where
  | log
  | info
  | warn
  | error
  deriving DecidableEq, Repr

structure LogEntry where
  level : LogLevel
  msg : String
  deriving DecidableEq, Repr

/-- One logger call: append the entry to the console output, subject to
the debug gating of `log`/`info`. -/
def Logger.emit (dbg : Bool) (lv : LogLevel) (m : String)
    (t : List LogEntry) : List LogEntry :=
  match lv with
  | .log => if dbg then t ++ [⟨lv, m⟩] else t
  | .info => if dbg then t ++ [⟨lv, m⟩] else t
  | .warn => t ++ [⟨lv, m⟩]
  | .error => t ++ [⟨lv, m⟩]

/-! ### Push pipeline (PushSynchronizer.ts)

The push state bundles the queue table, the record database, the
console output of the synchronizer's logger, and the logger's debug
flag.  The push transport is a function from the request payload to
either a thrown error or a `PushResponse`.  The internal logging of
`SyncQueueManager` (debug-gated diagnostics, and error logs that
immediately precede a rethrow) is not recorded. -/

structure PushState where
  queue : List QueueItem
  db : DB
  log : List LogEntry
  debug : Bool
  deriving DecidableEq, Repr

/-- One entry of `PushPayload.changes` (types/index.ts). -/
structure PushChange where
  tableName : String
  operation : SyncOperation
  recordId : String
  data : List (String × Value)
  deriving DecidableEq, Repr

/-- `PushPayload` from `types/index.ts`. -/
structure PushPayload where
  changes : List PushChange
  deriving DecidableEq, Repr

/-- One entry of `PushResponse.results` (types/index.ts). -/
structure PushItemResult where
  recordId : String
  serverId : Option String
  serverUpdatedAt : Option Nat
  error : Option String
  deriving DecidableEq, Repr

/-- Outcome of `apiClient.push`: the transport throws, or returns a
`PushResponse {success, results}`. -/
inductive PushTransportResult where
  | throws (msg : String)
  | resp (success : Bool) (results : List PushItemResult)
  deriving DecidableEq, Repr

/-- The request built from a batch in `PushSynchronizer.pushBatch`. -/
def mkPushPayload (items : List QueueItem) : PushPayload :=
  ⟨items.map (fun it => ⟨it.tableName, it.operation, it.recordId, it.payload⟩)⟩

/-- `SyncQueueManager.incrementRetry` acting on the push state. -/
def stIncrementRetry (st : PushState) (itemId errMsg : String) :
    Except String PushState :=
  match incrementRetry st.queue itemId errMsg with
  | .ok q' => .ok { st with queue := q' }
  | .error e => .error e

/-- `SyncQueueManager.markAsProcessed` acting on the push state. -/
def stMarkProcessed (st : PushState) (itemId : String) :
    Except String PushState :=
  match markAsProcessed st.queue itemId with
  | .ok q' => .ok { st with queue := q' }
  | .error e => .error e

/-- The record update applied after a per-item acknowledgement
(`PushSynchronizer.updateLocalRecord` body): `server_id` and
`server_updated_at` are written only when present and truthy
(`if (serverId)` / `if (serverUpdatedAt)` in the source, so an empty
string or a zero timestamp is skipped), then
`sync_status = synced`, `last_sync_error = null`. -/
def applyAck (r : LocalRecord) (serverId : Option String)
    (serverUpdatedAt : Option Nat) : LocalRecord :=
  let r1 := match serverId with
    | some sid => if sid = "" then r else { r with server_id := some sid }
    | none => r
  let r2 := match serverUpdatedAt with
    | some t => if t = 0 then r1 else { r1 with server_updated_at := some t }
    | none => r1
  { r2 with sync_status := some "synced", last_sync_error := none }

/-- `PushSynchronizer.updateLocalRecord`: look up the record and apply
the acknowledgement; every failure (unknown table, missing record) is
caught, logged at error level, and swallowed. -/
def updateLocalRecord (st : PushState) (tableName recordId : String)
    (serverId : Option String) (serverUpdatedAt : Option Nat) : PushState :=
  let failMsg := "Failed to update local record " ++ tableName ++ ":" ++ recordId
  let okMsg := "Updated local record " ++ tableName ++ ":" ++ recordId
  let failLog := fun (s : PushState) =>
    { s with log := Logger.emit s.debug LogLevel.error failMsg s.log }
  match getTable st.db tableName with
  | none => failLog st
  | some tbl =>
    match findById tbl recordId with
    | none => failLog st
    | some r =>
      let tbl' := replaceRecord r (applyAck r serverId serverUpdatedAt) tbl
      { st with
        db := setTable st.db tableName tbl'
        log := Logger.emit st.debug LogLevel.log okMsg st.log }

/-- Processing of one `(item, result)` pair inside the success branch
of `PushSynchronizer.pushBatch` (the body of the positional loop).
`.ok (st, true)` contributes to `pushedCount`, `.ok (st, false)` to
`failedCount`; `.error` models a throw escaping to the batch-level
catch. -/
def processPair (st : PushState) (item : QueueItem) (r : PushItemResult) :
    Except (PushState × String) (PushState × Bool) :=
  match r.error with
  | some err =>
    match stIncrementRetry st item.id err with
    | .ok st' =>
      let m := "Item " ++ item.id ++ " failed: " ++ err
      .ok ({ st' with log := Logger.emit st'.debug LogLevel.warn m st'.log }, false)
    | .error e => .error (st, e)
  | none =>
    let st1 := updateLocalRecord st item.tableName item.recordId
      r.serverId r.serverUpdatedAt
    match stMarkProcessed st1 item.id with
    | .ok st2 =>
      let m := "Item " ++ item.id ++ " pushed successfully"
      .ok ({ st2 with log := Logger.emit st2.debug LogLevel.log m st2.log }, true)
    | .error e => .error (st1, e)

/-- The positional result loop of `pushBatch`.  Reading
`response.results[i]` past the end of the array yields `undefined` and
the subsequent `.error` access throws (escaping to the catch). -/
def processLoop (st : PushState) :
    List QueueItem → List PushItemResult → Nat → Nat →
    Except (PushState × String) (PushState × Nat × Nat)
  | [], _, pushed, failedN => .ok (st, pushed, failedN)
  | _ :: _, [], _, _ =>
    .error (st, "Cannot read properties of undefined")
  | item :: items, r :: rs, pushed, failedN =>
    match processPair st item r with
    | .ok (st', true) => processLoop st' items rs (pushed + 1) failedN
    | .ok (st', false) => processLoop st' items rs pushed (failedN + 1)
    | .error e => .error e

/-- The catch handler of `pushBatch`: bump every item of the batch,
counting only the bumps that succeed; a failing bump is logged and
skipped. -/
def bumpAll (st : PushState) (msg : String) :
    List QueueItem → PushState × Nat
  | [] => (st, 0)
  | it :: rest =>
    match stIncrementRetry st it.id msg with
    | .ok st' =>
      let (st'', n) := bumpAll st' msg rest
      (st'', n + 1)
    | .error _ =>
      let m := "Failed to increment retry for item " ++ it.id
      let stL := { st with log := Logger.emit st.debug LogLevel.error m st.log }
      let (st'', n) := bumpAll stL msg rest
      (st'', n)

/-- The catch block of `PushSynchronizer.pushBatch`: log the failure,
bump every item of the batch with the error text, and return
`{pushedCount: 0, failedCount}` (the count of successful bumps). -/
def pushBatchCatch (st : PushState) (items : List QueueItem)
    (msg : String) : PushState × Nat × Nat :=
  let m := "Batch push failed: " ++ msg
  let st1 := { st with log := Logger.emit st.debug LogLevel.error m st.log }
  let (st2, n) := bumpAll st1 msg items
  (st2, 0, n)

/-- `PushSynchronizer.pushBatch`: send the batch; on a thrown transport
error or a `success=false` response (which the source turns into a
thrown `Push request failed`), enter the catch block; otherwise run the
positional loop, whose own throws also land in the catch block.
Returns the new state and `(pushedCount, failedCount)`. -/
def pushBatch (api : PushPayload → PushTransportResult) (st : PushState)
    (items : List QueueItem) : PushState × Nat × Nat :=
  match api (mkPushPayload items) with
  | .throws msg => pushBatchCatch st items msg
  | .resp success results =>
    if success then
      match processLoop st items results 0 0 with
      | .ok (st', p, f) => (st', p, f)
      | .error (st', msg) => pushBatchCatch st' items msg
    else pushBatchCatch st items "Push request failed"

/-- Split the pending items into contiguous batches of up to
`batchSize` (the slicing loop of `PushSynchronizer.push`; a zero
`batchSize` would loop forever in the source and is never used, the
default being 50). -/
def chunkList (bs : Nat) (l : List QueueItem) : List (List QueueItem) :=
  if hbs : bs = 0 then []
  else if hl : l = [] then []
  else l.take bs :: chunkList bs (l.drop bs)
termination_by l.length
decreasing_by
  simp only [List.length_drop]
  exact Nat.sub_lt (List.length_pos.mpr hl) (Nat.pos_of_ne_zero hbs)

/-- `PushSynchronizer.push`: fetch the pending items once, return
`{0, 0}` when there are none, otherwise push batch after batch and
accumulate the counts. -/
def push (api : PushPayload → PushTransportResult)
    (maxRetries batchSize : Nat) (st : PushState) : PushState × Nat × Nat :=
  let pendingItems := getPendingItems st.queue maxRetries
  if pendingItems.isEmpty then (st, 0, 0)
  else
    (chunkList batchSize pendingItems).foldl
      (fun acc batch =>
        let (st', p, f) := pushBatch api acc.1 batch
        (st', acc.2.1 + p, acc.2.2 + f))
      (st, 0, 0)

/-- The error text the catch handler bumps with, when the transport
outcome is a failure (`error.message` of the thrown error, the source
throwing `Push request failed` on `success=false`). -/
def transportFailMsg : PushTransportResult → Option String
  | .throws m => some m
  | .resp false _ => some "Push request failed"
  | .resp true _ => none

/-- The local record an acknowledged queue item targets, if present
(spec side: §4.2.1's presence test). -/
def recordFound (db : DB) (tableName recordId : String) : Option LocalRecord :=
  (getTable db tableName).bind (fun tbl => findById tbl recordId)

/-! ### Pull pipeline (PullSynchronizer.ts) -/

/-- A server record of a pull stanza: the wire contract guarantees an
`id` (the server id); `updated_at` may be absent; `fields` holds the
remaining (camelCase) keys — `id`, `created_at` and `updated_at` are
skipped by `applyServerData` and are therefore not repeated there. -/
structure ServerData where
  id : String
  updated_at : Option Nat
  fields : List (String × Value)
  deriving DecidableEq, Repr

/-- A resolver verdict: the strings `'local'` / `'server'`, or a merged
mapping (applied exactly like server data). -/
inductive Resolution where
  | keepLocal
  | keepServer
  | merged (data : ServerData)

/-- `ConflictContext` from `types/index.ts`, as built by
`PullSynchronizer.updateRecord`. -/
structure ConflictContext where
  tableName : String
  recordId : String
  localData : LocalRecord
  serverData : ServerData
  localUpdatedAt : Nat
  serverUpdatedAt : Nat
  deriving DecidableEq, Repr

/-- `key.replace(/([A-Z])/g, '_$1').toLowerCase()`. -/
def camelToSnake (s : String) : String :=
  ⟨s.data.foldr
    (fun c acc => if c.isUpper then '_' :: c.toLower :: acc else c.toLower :: acc)
    []⟩

/-- Assignment `record[fieldName] = value` on the domain fields:
overwrite the key if present, append it otherwise. -/
def setField (fs : List (String × Value)) (k : String) (v : Value) :
    List (String × Value) :=
  if fs.any (fun p => p.1 = k) then fs.map (fun p => if p.1 = k then (k, v) else p)
  else fs ++ [(k, v)]

/-- JavaScript `a || b` on an optional number: `0` is falsy. -/
def jsOrNat (o : Option Nat) (dflt : Nat) : Nat :=
  match o with
  | some v => if v = 0 then dflt else v
  | none => dflt

/-- JavaScript truthiness of an optional number field
(`undefined`, `null` and `0` are falsy). -/
def jsTruthyNum : Option Nat → Bool
  | some v => v != 0
  | none => false

/-- JavaScript `>` on optional numbers as used in the conflict check: a
comparison against `undefined` is false (the `null` case is unreachable
behind the truthiness guard). -/
def jsGtOptNat : Option Nat → Option Nat → Bool
  | some x, some y => decide (y < x)
  | _, _ => false

/-- The conflict test of `PullSynchronizer.updateRecord`:
`local.sync_status === 'pending' && local.server_updated_at &&
serverData.updated_at > local.server_updated_at`. -/
def hasConflict (l : LocalRecord) (sd : ServerData) : Bool :=
  (l.sync_status == some "pending")
    && jsTruthyNum l.server_updated_at
    && jsGtOptNat sd.updated_at l.server_updated_at

/-- `PullSynchronizer.applyServerData`: copy every non-metadata server
field (camelCase mapped to snake_case), then set
`server_id = S.id`, `server_updated_at = S.updated_at || Date.now()`,
`sync_status = 'synced'`, `last_sync_error = null`.  `now` is the value
of `Date.now()`. -/
def applyServerData (r : LocalRecord) (sd : ServerData) (now : Nat) : LocalRecord :=
  let r1 := sd.fields.foldl
    (fun acc kv => { acc with fields := setField acc.fields (camelToSnake kv.1) kv.2 })
    r
  { r1 with
    server_id := some sd.id
    server_updated_at := some (jsOrNat sd.updated_at now)
    sync_status := some "synced"
    last_sync_error := none }

/-- The `ConflictContext` constructed by `updateRecord`
(`localData.updated_at || 0` is the identity on a `Nat` field;
`serverData.updated_at || 0` is `getD 0`). -/
def mkConflictContext (l : LocalRecord) (sd : ServerData) : ConflictContext :=
  { tableName := l.table, recordId := l.id, localData := l, serverData := sd
    localUpdatedAt := l.updated_at, serverUpdatedAt := sd.updated_at.getD 0 }

/-- `PullSynchronizer.updateRecord`: detect a conflict, consult the
resolver when one is found, and apply the verdict; otherwise overwrite
the local record with the server data.  The second component lists the
contexts the resolver was invoked with. -/
def updateRecord (resolver : ConflictContext → Resolution)
    (l : LocalRecord) (sd : ServerData) (now : Nat) :
    LocalRecord × List ConflictContext :=
  if hasConflict l sd then
    let ctx := mkConflictContext l sd
    match resolver ctx with
    | .keepLocal => (l, [ctx])
    | .keepServer => (applyServerData l sd now, [ctx])
    | .merged m => (applyServerData l m now, [ctx])
  else
    (applyServerData l sd now, [])

/-- A blank record allocated by `collection.create` (WatermelonDB
assigns a fresh unique id, modelled by the `nextId` counter). -/
def freshLocalRecord (table : String) (nid : Nat) : LocalRecord :=
  { id := "local-" ++ toString nid, table := table, server_id := none
    server_updated_at := none, sync_status := none, last_sync_error := none
    updated_at := 0, isDeleted := false, fields := [] }

/-- `PullSynchronizer.applyCreated` loop: for each server record,
update the first existing record with that `server_id`, or create a new
one.  Returns the table and the id counter (the count reported by
`applyCreated` is `records.length`). -/
def applyCreatedGo (resolver : ConflictContext → Resolution) (now : Nat)
    (table : String) :
    List LocalRecord → Nat → List ServerData → List LocalRecord × Nat
  | tbl, nid, [] => (tbl, nid)
  | tbl, nid, sd :: rest =>
    match queryByServerId tbl sd.id with
    | r0 :: _ =>
      let (rNew, _) := updateRecord resolver r0 sd now
      applyCreatedGo resolver now table (replaceRecord r0 rNew tbl) nid rest
    | [] =>
      let rNew := applyServerData (freshLocalRecord table nid) sd now
      applyCreatedGo resolver now table (tbl ++ [rNew]) (nid + 1) rest

/-- `PullSynchronizer.applyUpdated` loop: update the first record with
that `server_id`, or create one; either way `updatedCount` is
incremented.  Returns the table, the id counter and the count. -/
def applyUpdatedGo (resolver : ConflictContext → Resolution) (now : Nat)
    (table : String) :
    List LocalRecord → Nat → List ServerData → List LocalRecord × Nat × Nat
  | tbl, nid, [] => (tbl, nid, 0)
  | tbl, nid, sd :: rest =>
    match queryByServerId tbl sd.id with
    | r0 :: _ =>
      let (rNew, _) := updateRecord resolver r0 sd now
      let (tbl', nid', c) :=
        applyUpdatedGo resolver now table (replaceRecord r0 rNew tbl) nid rest
      (tbl', nid', c + 1)
    | [] =>
      let rNew := applyServerData (freshLocalRecord table nid) sd now
      let (tbl', nid', c) :=
        applyUpdatedGo resolver now table (tbl ++ [rNew]) (nid + 1) rest
      (tbl', nid', c + 1)

/-- Mark every fetched record (non-deleted, matching `server_id`) as
soft-deleted. -/
def markDeletedByServerId (tbl : List LocalRecord) (sid : String) :
    List LocalRecord :=
  tbl.map (fun r =>
    if !r.isDeleted && r.server_id == some sid then { r with isDeleted := true } else r)

/-- `PullSynchronizer.applyDeleted` loop: for each listed server id,
fetch the matching records and mark each one, incrementing
`deletedCount` once per record (not once per listed id). -/
def applyDeletedGo : List LocalRecord → List String → List LocalRecord × Nat
  | tbl, [] => (tbl, 0)
  | tbl, sid :: rest =>
    let n := (queryByServerId tbl sid).length
    let (tbl', c) := applyDeletedGo (markDeletedByServerId tbl sid) rest
    (tbl', c + n)

/-- One table's `{created, updated, deleted}` stanza of a pull
response. -/
structure TableChanges where
  created : List ServerData
  updated : List ServerData
  deleted : List String
  deriving Repr

/-- `PullResponse` from `types/index.ts`; `changes` is
`Object.entries(response.changes)` in iteration order. -/
structure PullResponse where
  timestamp : Nat
  changes : List (String × TableChanges)
  deriving Repr

/-- `PullPayload` from `types/index.ts`. -/
structure PullPayload where
  lastSyncAt : Option Nat
  tables : List String
  deriving DecidableEq, Repr

/-- Application of one table's stanzas to its fetched contents, in the
order created, updated, deleted.  Returns the database and
`created + updated + deleted` as counted by the source. -/
def applyTableTo (resolver : ConflictContext → Resolution) (now : Nat)
    (db : DB) (tname : String) (ch : TableChanges)
    (tbl : List LocalRecord) : DB × Nat :=
  let c1 := applyCreatedGo resolver now tname tbl db.nextId ch.created
  let u := applyUpdatedGo resolver now tname c1.1 c1.2 ch.updated
  let d := applyDeletedGo u.1 ch.deleted
  (setTable { db with nextId := u.2.1 } tname d.1,
   ch.created.length + u.2.2 + d.2)

/-- Application of one table's stanzas inside the write transaction; an
unknown table makes `database.get` throw, which aborts the pull. -/
def applyTable (resolver : ConflictContext → Resolution) (now : Nat)
    (db : DB) (tname : String) (ch : TableChanges) : Except String (DB × Nat) :=
  match getTable db tname with
  | none => .error ("Table not found: " ++ tname)
  | some tbl => .ok (applyTableTo resolver now db tname ch tbl)

/-- The per-table loop of `PullSynchronizer.pull`, accumulating
`pulledCount`. -/
def pullGo (resolver : ConflictContext → Resolution) (now : Nat) :
    DB → List (String × TableChanges) → Except String (DB × Nat)
  | db, [] => .ok (db, 0)
  | db, (tn, ch) :: rest =>
    match applyTable resolver now db tn ch with
    | .error e => .error e
    | .ok (db', c) =>
      match pullGo resolver now db' rest with
      | .error e => .error e
      | .ok (db'', total) => .ok (db'', c + total)

/-! ### Watermark storage (AsyncStorage) -/

/-- The well-known watermark key. -/
def LAST_SYNC_KEY : String := "@offlineSync:lastSyncAt"

/-- The external string-keyed blob store. -/
abbrev KVStore := List (String × String)

/-- `AsyncStorage.getItem`. -/
def kvGet (kv : KVStore) (k : String) : Option String :=
  (kv.find? (fun p => p.1 = k)).map (fun p => p.2)

/-- `AsyncStorage.setItem`. -/
def kvSet (kv : KVStore) (k v : String) : KVStore :=
  if kv.any (fun p => p.1 = k) then kv.map (fun p => if p.1 = k then (k, v) else p)
  else kv ++ [(k, v)]

/-- The decimal digit character for `d` (`'0'`–`'9'`). -/
def decDigitChar (d : Nat) : Char := Char.ofNat (48 + d)

/-- `timestamp.toString()`: the decimal rendering of the number. -/
def natToDecString (n : Nat) : String :=
  if n = 0 then "0" else ⟨((Nat.digits 10 n).map decDigitChar).reverse⟩

/-- `parseInt(value, 10)` on the stored strings: the leading digit run,
or `none` for `NaN`.  (The full `parseInt` also accepts signs and
leading whitespace; the stored watermark is always a plain digit
string.) -/
def parseIntDec (s : String) : Option Nat :=
  let ds := s.data.takeWhile (fun c => c.isDigit)
  if ds.isEmpty then none
  else some (ds.foldl (fun acc c => acc * 10 + (c.toNat - 48)) 0)

/-- `PullSynchronizer.getLastSyncTimestamp`:
`value ? parseInt(value, 10) : null` (a missing key and the falsy empty
string both yield `null`). -/
def getLastSyncTimestamp (kv : KVStore) : Option Nat :=
  match kvGet kv LAST_SYNC_KEY with
  | none => none
  | some v => if v = "" then none else parseIntDec v

/-- `PullSynchronizer.setLastSyncTimestamp`: store
`timestamp.toString()` under the well-known key (write failures are
caught and ignored in the source; the store itself is modelled as
reliable). -/
def setLastSyncTimestamp (kv : KVStore) (t : Nat) : KVStore :=
  kvSet kv LAST_SYNC_KEY (natToDecString t)

/-- The pull request built by `PullSynchronizer.pull`. -/
def mkPullPayload (kv : KVStore) (tables : List String) : PullPayload :=
  ⟨getLastSyncTimestamp kv, tables⟩

/-- `PullSynchronizer.pull`: read the watermark, send the request,
apply every table's stanzas inside one write transaction, then persist
the response timestamp as the new watermark.  Transport and transaction
failures propagate (`.error`); the pull transport itself is modelled as
a function from the payload to the response. -/
def pull (api : PullPayload → PullResponse)
    (resolver : ConflictContext → Resolution) (tables : List String)
    (now : Nat) (kv : KVStore) (db : DB) :
    Except String (Nat × KVStore × DB) :=
  let payload := mkPullPayload kv tables
  let response := api payload
  match pullGo resolver now db response.changes with
  | .error e => .error e
  | .ok (db', count) =>
    .ok (count, setLastSyncTimestamp kv response.timestamp, db')

/-! ### Statements taken from the specification's wording -/

/-- Claim C3's conflict condition, amended only by requiring the stored
`server_updated_at` to be nonzero (JavaScript truthiness): pending
local edits, a known nonzero server timestamp, and a strictly newer
server version. -/
def specAmendedConflict (l : LocalRecord) (sd : ServerData) : Prop :=
  l.sync_status = some "pending" ∧
  ∃ v, l.server_updated_at = some v ∧ v ≠ 0 ∧ ∃ u, sd.updated_at = some u ∧ v < u

/-- Number of soft-deleted rows of a table. -/
def countDeleted (tbl : List LocalRecord) : Nat :=
  (tbl.filter (fun r => r.isDeleted)).length

/-- Number of soft-deleted rows of the whole database. -/
def deletedCountDB (db : DB) : Nat :=
  (db.tables.map (fun t => countDeleted t.2)).sum

/-- Total number of created and updated stanza entries of a pull
response. -/
def totalCreatedUpdated (chs : List (String × TableChanges)) : Nat :=
  (chs.map (fun p => p.2.created.length + p.2.updated.length)).sum

/-- Total number of stanza entries (created, updated and deleted) of a
pull response — the count claim C6 ascribes to `pulled`. -/
def totalStanzaEntries (chs : List (String × TableChanges)) : Nat :=
  (chs.map (fun p => p.2.created.length + p.2.updated.length + p.2.deleted.length)).sum

/-- An engine whose in-flight sync has set `status: syncing,
isSyncing: true` (the heap right after `sync()`'s first `updateState`
on a fresh engine). -/
def busyEngineHeap : EngineHeap :=
  updateState initialEngineHeap
    { status := some .syncing, isSyncing := some true, error := some none }

/-- A `sync()` call arriving while that sync is still in flight (the
concurrency guard's failing input). -/
def busySyncRun : SyncOutcome :=
  sync busyEngineHeap ⟨true, .ok (0, 0), .ok 0, 0⟩ 100 110

/-! Queue lemmas. -/

theorem lookupQueue_append_left {q r : List QueueItem} {id : String} {i : QueueItem}
    (h : lookupQueue q id = some i) : lookupQueue (q ++ r) id = some i := by
  simp only [lookupQueue] at h ⊢
  rw [List.find?_append, h]
  rfl

theorem lookupQueue_eq_none_iff {q : List QueueItem} {id : String} :
    lookupQueue q id = none ↔ ∀ it ∈ q, it.id ≠ id := by
  simp [lookupQueue, List.find?_eq_none]

theorem lookupQueue_map_id_preserving {q : List QueueItem} (id : String)
    (f : QueueItem → QueueItem) (hf : ∀ it, (f it).id = it.id) :
    lookupQueue (q.map f) id = (lookupQueue q id).map f := by
  simp only [lookupQueue, List.find?_map]
  have hp : ((fun it : QueueItem => decide (it.id = id)) ∘ f)
      = (fun it : QueueItem => decide (it.id = id)) :=
    funext fun it => by simp [Function.comp, hf]
  rw [hp]

theorem incrementRetry_of_lookup {q : List QueueItem} {itemId : String}
    (errMsg : String) {i : QueueItem} (h : lookupQueue q itemId = some i) :
    ∃ q', incrementRetry q itemId errMsg = .ok q' ∧
      lookupQueue q' itemId
        = some { i with retryCount := i.retryCount + 1, errorMessage := some errMsg } := by
  refine ⟨_, by rw [incrementRetry, h], ?_⟩
  rw [lookupQueue_map_id_preserving itemId _ (fun it => by
    by_cases hit : it.id = itemId <;> simp [hit])]
  rw [h]
  have hid : i.id = itemId := by
    have := List.find?_some h
    simpa using this
  simp [hid]

theorem lookupQueue_incrementRetry_ne {q q' : List QueueItem}
    {itemId errMsg x : String} (hne : x ≠ itemId)
    (h : incrementRetry q itemId errMsg = .ok q') :
    lookupQueue q' x = lookupQueue q x := by
  rw [incrementRetry] at h
  cases hl : lookupQueue q itemId with
  | none => rw [hl] at h; exact absurd h (by simp)
  | some i =>
    rw [hl] at h
    cases h
    rw [lookupQueue_map_id_preserving x _ (fun it => by
      by_cases hit : it.id = itemId <;> simp [hit])]
    cases hx : lookupQueue q x with
    | none => rfl
    | some j =>
      have hjid : j.id = x := by simpa using List.find?_some hx
      simp [hjid, hne]

theorem wfQueue_incrementRetry {q q' : List QueueItem} {itemId errMsg : String}
    (hwf : wfQueue q) (h : incrementRetry q itemId errMsg = .ok q') :
    wfQueue q' := by
  rw [incrementRetry] at h
  cases hl : lookupQueue q itemId with
  | none => rw [hl] at h; exact absurd h (by simp)
  | some i =>
    rw [hl] at h
    cases h
    unfold wfQueue at hwf ⊢
    rw [List.map_map]
    have : ∀ it ∈ q, ((fun it => it.id) ∘ (fun it =>
        if it.id = itemId
        then { it with retryCount := it.retryCount + 1, errorMessage := some errMsg }
        else it)) it = it.id := by
      intro it _
      by_cases hit : it.id = itemId <;> simp [hit]
    rw [List.map_congr_left this]
    exact hwf

theorem lookupQueue_unique {q : List QueueItem} {id : String} {i j : QueueItem}
    (hwf : wfQueue q) (hi : lookupQueue q id = some i) (hj : j ∈ q)
    (hjid : j.id = id) : j = i := by
  induction q with
  | nil => simp at hj
  | cons a q ih =>
    rw [wfQueue, List.map_cons, List.nodup_cons] at hwf
    obtain ⟨ha, hq⟩ := hwf
    rcases List.mem_cons.mp hj with hj1 | hj2
    · subst hj1
      rw [lookupQueue, List.find?_cons_of_pos _ (by simp [hjid])] at hi
      cases hi
      rfl
    · by_cases haid : a.id = id
      · exact absurd (by rw [haid, ← hjid]; exact List.mem_map_of_mem _ hj2) ha
      · rw [lookupQueue, List.find?_cons_of_neg _ (by simp [haid])] at hi
        exact ih hq hi hj2

theorem lookupQueue_filter_keep {q : List QueueItem} {id : String}
    (p : QueueItem → Bool) (hp : ∀ it, it.id = id → p it = true) :
    lookupQueue (q.filter p) id = lookupQueue q id := by
  induction q with
  | nil => rfl
  | cons a q ih =>
    by_cases haid : a.id = id
    · rw [List.filter_cons, if_pos (hp a haid)]
      rw [lookupQueue, List.find?_cons_of_pos _ (by simp [haid]),
        lookupQueue, List.find?_cons_of_pos _ (by simp [haid])]
    · cases hpa : p a
      · rw [List.filter_cons, hpa]
        simp only [Bool.false_eq_true, if_false]
        rw [ih, lookupQueue, lookupQueue, List.find?_cons_of_neg _ (by simp [haid])]
      · rw [List.filter_cons, hpa]
        simp only [if_true]
        rw [lookupQueue, List.find?_cons_of_neg _ (by simp [haid]),
          lookupQueue, List.find?_cons_of_neg _ (by simp [haid])]
        exact ih

theorem lookupQueue_filter_ne_self {q : List QueueItem} {itemId : String} :
    lookupQueue (q.filter (fun it => it.id != itemId)) itemId = none := by
  rw [lookupQueue, List.find?_eq_none]
  intro x hx
  have hxp := (List.mem_filter.mp hx).2
  simp only [bne_iff_ne, ne_eq] at hxp
  simp [hxp]

theorem wfQueue_filter {q : List QueueItem} (p : QueueItem → Bool)
    (hwf : wfQueue q) : wfQueue (q.filter p) :=
  ((List.filter_sublist q).map _).nodup hwf

theorem wfQueue_stepQueue {op : QueueOp} {q : List QueueItem}
    (hwf : wfQueue q) (hv : validOp op q = true) : wfQueue (stepQueue op q) := by
  cases op with
  | enqueue newId o tn rid pl now0 =>
    have hnone : lookupQueue q newId = none :=
      Option.isNone_iff_eq_none.mp hv
    have hnotin : newId ∉ q.map (fun it => it.id) := by
      simp only [List.mem_map, not_exists]
      rintro it ⟨hit, hid⟩
      exact (lookupQueue_eq_none_iff.mp hnone it hit) hid
    simp only [stepQueue, addToQueue, wfQueue, List.map_append, List.map_cons,
      List.map_nil]
    rw [List.nodup_append]
    exact ⟨hwf, List.nodup_singleton _, by simpa [List.Disjoint] using hnotin⟩
  | pendingQuery m => simpa [stepQueue] using hwf
  | failedQuery m => simpa [stepQueue] using hwf
  | countQuery => simpa [stepQueue] using hwf
  | ack itemId =>
    simp only [stepQueue, markAsProcessed]
    cases hl : lookupQueue q itemId with
    | none => simpa using hwf
    | some k => simpa using wfQueue_filter _ hwf
  | bump itemId errMsg =>
    simp only [stepQueue]
    cases hok : incrementRetry q itemId errMsg with
    | error e => simpa [hok] using hwf
    | ok q' => simpa [hok] using wfQueue_incrementRetry hwf hok
  | purgeFailed m =>
    simpa [stepQueue, clearFailedItems] using wfQueue_filter _ hwf
  | purgeAll =>
    simp [stepQueue, clearAllItems, wfQueue]

theorem retry_mono_stepQueue {op : QueueOp} {q : List QueueItem} {id : String}
    {i j : QueueItem} (hwf : wfQueue q) (hi : lookupQueue q id = some i)
    (hj : lookupQueue (stepQueue op q) id = some j) :
    i.retryCount ≤ j.retryCount := by
  cases op with
  | enqueue newId o tn rid pl now0 =>
    rw [stepQueue, addToQueue, lookupQueue_append_left hi] at hj
    cases hj
    exact Nat.le_refl _
  | pendingQuery m =>
    rw [stepQueue, hi] at hj; cases hj; exact Nat.le_refl _
  | failedQuery m =>
    rw [stepQueue, hi] at hj; cases hj; exact Nat.le_refl _
  | countQuery =>
    rw [stepQueue, hi] at hj; cases hj; exact Nat.le_refl _
  | ack itemId =>
    rw [stepQueue, markAsProcessed] at hj
    cases hl : lookupQueue q itemId with
    | none =>
      rw [hl] at hj
      simp only [Except.toOption, Option.getD] at hj
      rw [hi] at hj; cases hj; exact Nat.le_refl _
    | some k =>
      rw [hl] at hj
      simp only [Except.toOption, Option.getD] at hj
      by_cases hcase : id = itemId
      · subst hcase
        rw [lookupQueue_filter_ne_self] at hj
        cases hj
      · rw [lookupQueue_filter_keep _ (fun it hid => by simp [hid, hcase])] at hj
        rw [hi] at hj; cases hj; exact Nat.le_refl _
  | bump itemId errMsg =>
    rw [stepQueue] at hj
    cases hok : incrementRetry q itemId errMsg with
    | error e =>
      rw [hok] at hj
      simp only [Except.toOption, Option.getD] at hj
      rw [hi] at hj; cases hj; exact Nat.le_refl _
    | ok q' =>
      rw [hok] at hj
      simp only [Except.toOption, Option.getD] at hj
      by_cases hcase : id = itemId
      · subst hcase
        obtain ⟨q'', hq'', hlook⟩ := incrementRetry_of_lookup errMsg hi
        rw [hok] at hq''
        cases hq''
        rw [hlook] at hj
        cases hj
        exact Nat.le_succ _
      · rw [lookupQueue_incrementRetry_ne hcase hok, hi] at hj
        cases hj
        exact Nat.le_refl _
  | purgeFailed m =>
    rw [stepQueue, clearFailedItems] at hj
    have hjid : j.id = id := by simpa using List.find?_some hj
    have hjmem : j ∈ q := (List.mem_filter.mp (List.mem_of_find?_eq_some hj)).1
    rw [lookupQueue_unique hwf hi hjmem hjid]
  | purgeAll =>
    rw [stepQueue] at hj
    simp [clearAllItems, lookupQueue] at hj

theorem retry_mono_runQueueOps {ops : List QueueOp} :
    ∀ {q : List QueueItem} {id : String} {i j : QueueItem},
      wfQueue q → validOps ops q = true → presentThroughout ops q id = true →
      lookupQueue q id = some i → lookupQueue (runQueueOps ops q) id = some j →
      i.retryCount ≤ j.retryCount := by
  induction ops with
  | nil =>
    intro q id i j _ _ _ hi hj
    rw [runQueueOps, hi] at hj
    cases hj
    exact Nat.le_refl _
  | cons op ops ih =>
    intro q id i j hwf hv hp hi hj
    rw [validOps, Bool.and_eq_true] at hv
    rw [presentThroughout, Bool.and_eq_true] at hp
    obtain ⟨k, hk⟩ := Option.isSome_iff_exists.mp hp.1
    have h1 := retry_mono_stepQueue hwf hi hk
    have hwf' := wfQueue_stepQueue hwf hv.1
    have h2 := ih hwf' hv.2 hp.2 hk (by rwa [runQueueOps] at hj)
    exact Nat.le_trans h1 h2

/-- Claim C9: `retry_count` is monotonically non-decreasing over a
queue item's lifetime.  Conjunct 1: `enqueue` initializes the new row
with `retry_count = 0` (and a null error message).  Conjunct 2: `bump`
increases the row's `retry_count` by exactly one, recording the error
text.  Conjunct 3: over any valid sequence of queue operations
(enqueued ids fresh, as the database guarantees) during which the item
stays present, its `retry_count` never decreases. -/
theorem c9_retry_monotonicity :
    (∀ (q : List QueueItem) (newId : String) (op : SyncOperation)
        (tn rid : String) (pl : List (String × Value)) (now0 : Nat),
      lookupQueue q newId = none →
      lookupQueue (addToQueue q newId op tn rid pl now0) newId
        = some { id := newId, operation := op, tableName := tn, recordId := rid
                 payload := pl, retryCount := 0, errorMessage := none
                 createdAt := now0, updatedAt := now0 }) ∧
    (∀ (q : List QueueItem) (itemId errMsg : String) (i : QueueItem),
      lookupQueue q itemId = some i →
      ∃ q', incrementRetry q itemId errMsg = .ok q' ∧
        lookupQueue q' itemId
          = some { i with retryCount := i.retryCount + 1
                          errorMessage := some errMsg }) ∧
    (∀ (ops : List QueueOp) (q : List QueueItem) (id : String) (i j : QueueItem),
      wfQueue q → validOps ops q = true → presentThroughout ops q id = true →
      lookupQueue q id = some i →
      lookupQueue (runQueueOps ops q) id = some j →
      i.retryCount ≤ j.retryCount) := by
  refine ⟨?_, ?_, ?_⟩
  · intro q newId op tn rid pl now0 hnone
    rw [lookupQueue] at hnone
    rw [addToQueue, lookupQueue, List.find?_append, hnone]
    simp [List.find?]
  · intro q itemId errMsg i hi
    exact incrementRetry_of_lookup errMsg hi
  · intro ops q id i j hwf hv hp hi hj
    exact retry_mono_runQueueOps hwf hv hp hi hj

/-- Claim C9 witness: a freshly enqueued item starts at retry 0, and a
single bump on it yields a retry count that the monotonicity theorem
bounds from below by the original one. -/
theorem c9_retry_monotonicity_witness :
    lookupQueue (addToQueue [] "q1" SyncOperation.create "posts" "p1" [] 10) "q1"
      = some { id := "q1", operation := SyncOperation.create, tableName := "posts"
               recordId := "p1", payload := [], retryCount := 0, errorMessage := none
               createdAt := 10, updatedAt := 10 } ∧
    QueueItem.retryCount
      { id := "q1", operation := SyncOperation.create, tableName := "posts"
        recordId := "p1", payload := [], retryCount := 0, errorMessage := none
        createdAt := 10, updatedAt := 10 }
      ≤ QueueItem.retryCount
      { id := "q1", operation := SyncOperation.create, tableName := "posts"
        recordId := "p1", payload := [], retryCount := 1
        errorMessage := some "boom", createdAt := 10, updatedAt := 10 } :=
  ⟨c9_retry_monotonicity.1 [] "q1" SyncOperation.create "posts" "p1" [] 10 rfl,
   c9_retry_monotonicity.2.2 [QueueOp.bump "q1" "boom"]
     [{ id := "q1", operation := SyncOperation.create, tableName := "posts"
        recordId := "p1", payload := [], retryCount := 0, errorMessage := none
        createdAt := 10, updatedAt := 10 }] "q1" _ _
     (by decide) (by decide) (by decide) (by decide) (by decide)⟩

/-! Push pipeline lemmas. -/

theorem bumpAll_lookup_not_mem :
    ∀ (items : List QueueItem) (st : PushState) (msg x : String),
      x ∉ items.map (fun it => it.id) →
      lookupQueue (bumpAll st msg items).1.queue x = lookupQueue st.queue x := by
  intro items
  induction items with
  | nil => intro st msg x _; rfl
  | cons it rest ih =>
    intro st msg x hx
    rw [List.map_cons, List.mem_cons, not_or] at hx
    obtain ⟨hx1, hx2⟩ := hx
    rw [bumpAll]
    cases hok : stIncrementRetry st it.id msg with
    | ok st' =>
      have hq : incrementRetry st.queue it.id msg = .ok st'.queue := by
        rw [stIncrementRetry] at hok
        cases hq0 : incrementRetry st.queue it.id msg with
        | ok q0 => rw [hq0] at hok; cases hok; rfl
        | error e0 => rw [hq0] at hok; cases hok
      exact (ih st' msg x hx2).trans (lookupQueue_incrementRetry_ne hx1 hq)
    | error e =>
      exact ih _ msg x hx2

theorem bumpAll_spec :
    ∀ (items : List QueueItem) (st : PushState) (msg : String),
      wfQueue st.queue →
      (items.map (fun it => it.id)).Nodup →
      (∀ it ∈ items, lookupQueue st.queue it.id = some it) →
      (bumpAll st msg items).2 = items.length ∧
      (∀ it ∈ items, lookupQueue (bumpAll st msg items).1.queue it.id
        = some { it with retryCount := it.retryCount + 1
                         errorMessage := some msg }) := by
  intro items
  induction items with
  | nil => intro st msg _ _ _; exact ⟨rfl, by simp⟩
  | cons it rest ih =>
    intro st msg hwf hnodup hmem
    rw [List.map_cons, List.nodup_cons] at hnodup
    obtain ⟨hnotin, hnodup'⟩ := hnodup
    have hit : lookupQueue st.queue it.id = some it := hmem it (by simp)
    obtain ⟨q', hok, hlook⟩ := incrementRetry_of_lookup msg hit
    have hwf' : wfQueue q' := wfQueue_incrementRetry hwf hok
    have hmem' : ∀ r ∈ rest, lookupQueue q' r.id = some r := by
      intro r hr
      have hne : r.id ≠ it.id := fun h => hnotin (h ▸ List.mem_map_of_mem _ hr)
      rw [lookupQueue_incrementRetry_ne hne hok]
      exact hmem r (by simp [hr])
    have hst' : stIncrementRetry st it.id msg = .ok { st with queue := q' } := by
      rw [stIncrementRetry, hok]
    obtain ⟨ihc, ihl⟩ := ih { st with queue := q' } msg hwf' hnodup' hmem'
    rw [bumpAll, hst']
    constructor
    · show (bumpAll { st with queue := q' } msg rest).2 + 1 = rest.length + 1
      rw [ihc]
    · intro x hx
      rcases List.mem_cons.mp hx with hx1 | hx2
      · subst hx1
        show lookupQueue (bumpAll { st with queue := q' } msg rest).1.queue x.id = _
        rw [bumpAll_lookup_not_mem rest { st with queue := q' } msg x.id hnotin]
        exact hlook
      · show lookupQueue (bumpAll { st with queue := q' } msg rest).1.queue x.id = _
        exact ihl x hx2

theorem pushBatchCatch_spec (st : PushState) (items : List QueueItem)
    (msg : String) (hwf : wfQueue st.queue)
    (hids : (items.map (fun it => it.id)).Nodup)
    (hmem : ∀ it ∈ items, lookupQueue st.queue it.id = some it) :
    (pushBatchCatch st items msg).2.1 = 0 ∧
    (pushBatchCatch st items msg).2.2 = items.length ∧
    ∀ it ∈ items, lookupQueue (pushBatchCatch st items msg).1.queue it.id
      = some { it with retryCount := it.retryCount + 1
                       errorMessage := some msg } := by
  obtain ⟨hc, hl⟩ := bumpAll_spec items
    ⟨st.queue, st.db, Logger.emit st.debug LogLevel.error ("Batch push failed: " ++ msg) st.log, st.debug⟩
    msg hwf hids hmem
  exact ⟨rfl, hc, hl⟩

/-- Claim C4: when the transport throws or the response carries
`success=false`, the batch-level catch bumps every item of the batch
with the error text, the batch contributes its full length to the
returned `failedCount`, and nothing to `pushedCount`.  The hypotheses
say the batch rows are queue rows (as `push` guarantees, having fetched
them from the queue) with unique ids. -/
theorem c4_transport_failure_bumps_all
    (api : PushPayload → PushTransportResult) (st : PushState)
    (items : List QueueItem) (msg : String)
    (hfail : transportFailMsg (api (mkPushPayload items)) = some msg)
    (hwf : wfQueue st.queue)
    (hids : (items.map (fun it => it.id)).Nodup)
    (hmem : ∀ it ∈ items, lookupQueue st.queue it.id = some it) :
    (pushBatch api st items).2.1 = 0 ∧
    (pushBatch api st items).2.2 = items.length ∧
    ∀ it ∈ items, lookupQueue (pushBatch api st items).1.queue it.id
      = some { it with retryCount := it.retryCount + 1
                       errorMessage := some msg } := by
  cases hT : api (mkPushPayload items) with
  | throws m =>
    rw [hT] at hfail
    simp only [transportFailMsg, Option.some.injEq] at hfail
    subst hfail
    have h := pushBatchCatch_spec st items m hwf hids hmem
    rw [pushBatch, hT]
    exact h
  | resp success results =>
    cases success with
    | true =>
      rw [hT] at hfail
      simp [transportFailMsg] at hfail
    | false =>
      rw [hT] at hfail
      simp only [transportFailMsg, Option.some.injEq] at hfail
      subst hfail
      have h := pushBatchCatch_spec st items "Push request failed" hwf hids hmem
      rw [pushBatch, hT]
      exact h

/-- Claim C4 witness: a two-item batch against a transport that throws
`Network error`; the batch reports zero pushed and two failed. -/
theorem c4_transport_failure_bumps_all_witness :
    (pushBatch (fun _ => PushTransportResult.throws "Network error")
      { queue := [{ id := "i1", operation := SyncOperation.create, tableName := "posts"
                    recordId := "p1", payload := [], retryCount := 0, errorMessage := none
                    createdAt := 0, updatedAt := 0 },
                  { id := "i2", operation := SyncOperation.update, tableName := "posts"
                    recordId := "p2", payload := [], retryCount := 2, errorMessage := none
                    createdAt := 0, updatedAt := 0 }]
        db := { tables := [("posts", [])], nextId := 0 }, log := [], debug := false }
      [{ id := "i1", operation := SyncOperation.create, tableName := "posts"
         recordId := "p1", payload := [], retryCount := 0, errorMessage := none
         createdAt := 0, updatedAt := 0 },
       { id := "i2", operation := SyncOperation.update, tableName := "posts"
         recordId := "p2", payload := [], retryCount := 2, errorMessage := none
         createdAt := 0, updatedAt := 0 }]).2.1 = 0 ∧
    (pushBatch (fun _ => PushTransportResult.throws "Network error")
      { queue := [{ id := "i1", operation := SyncOperation.create, tableName := "posts"
                    recordId := "p1", payload := [], retryCount := 0, errorMessage := none
                    createdAt := 0, updatedAt := 0 },
                  { id := "i2", operation := SyncOperation.update, tableName := "posts"
                    recordId := "p2", payload := [], retryCount := 2, errorMessage := none
                    createdAt := 0, updatedAt := 0 }]
        db := { tables := [("posts", [])], nextId := 0 }, log := [], debug := false }
      [{ id := "i1", operation := SyncOperation.create, tableName := "posts"
         recordId := "p1", payload := [], retryCount := 0, errorMessage := none
         createdAt := 0, updatedAt := 0 },
       { id := "i2", operation := SyncOperation.update, tableName := "posts"
         recordId := "p2", payload := [], retryCount := 2, errorMessage := none
         createdAt := 0, updatedAt := 0 }]).2.2 = 2 := by
  have h := c4_transport_failure_bumps_all
    (fun _ => PushTransportResult.throws "Network error")
    { queue := [{ id := "i1", operation := SyncOperation.create, tableName := "posts"
                  recordId := "p1", payload := [], retryCount := 0, errorMessage := none
                  createdAt := 0, updatedAt := 0 },
                { id := "i2", operation := SyncOperation.update, tableName := "posts"
                  recordId := "p2", payload := [], retryCount := 2, errorMessage := none
                  createdAt := 0, updatedAt := 0 }]
      db := { tables := [("posts", [])], nextId := 0 }, log := [], debug := false }
    [{ id := "i1", operation := SyncOperation.create, tableName := "posts"
       recordId := "p1", payload := [], retryCount := 0, errorMessage := none
       createdAt := 0, updatedAt := 0 },
     { id := "i2", operation := SyncOperation.update, tableName := "posts"
       recordId := "p2", payload := [], retryCount := 2, errorMessage := none
       createdAt := 0, updatedAt := 0 }]
    "Network error" rfl (by decide) (by decide) (by decide)
  exact ⟨h.1, h.2.1⟩

theorem updateLocalRecord_absent (st : PushState) (tn rid : String)
    (serverId : Option String) (serverUpdatedAt : Option Nat)
    (habs : recordFound st.db tn rid = none) :
    updateLocalRecord st tn rid serverId serverUpdatedAt
      = { st with log := Logger.emit st.debug LogLevel.error ("Failed to update local record " ++ tn ++ ":" ++ rid) st.log } := by
  rw [recordFound] at habs
  cases hgt : getTable st.db tn with
  | none => simp [updateLocalRecord, hgt]
  | some tbl =>
    rw [hgt] at habs
    simp only [Option.some_bind] at habs
    simp [updateLocalRecord, hgt, habs]

/-- Claim C8, amended: for a queue item whose positional result carries
no error and whose target record is absent from the local store, the
pipeline logs the failure at error level (not as a warning), performs
no local record mutation, still acks (deletes) the queue row, and
counts the item in `pushedCount` (shown both for the item's processing
step and for a whole one-item batch). -/
theorem c8_absent_record_still_acked
    (api : PushPayload → PushTransportResult) (st : PushState)
    (item : QueueItem) (r : PushItemResult)
    (hnoerr : r.error = none)
    (habs : recordFound st.db item.tableName item.recordId = none)
    (hq : lookupQueue st.queue item.id = some item)
    (hapi : api (mkPushPayload [item]) = .resp true [r]) :
    (∃ stf, processPair st item r = .ok (stf, true) ∧
      stf.db = st.db ∧
      lookupQueue stf.queue item.id = none ∧
      ∃ suffix, stf.log = st.log ++ suffix ∧
        (∃ e ∈ suffix, e.level = LogLevel.error) ∧
        ∀ e ∈ suffix, e.level ≠ LogLevel.warn) ∧
    ((pushBatch api st [item]).2.1 = 1 ∧
     (pushBatch api st [item]).2.2 = 0 ∧
     (pushBatch api st [item]).1.db = st.db) := by
  have hupd := updateLocalRecord_absent st item.tableName item.recordId
    r.serverId r.serverUpdatedAt habs
  have hmp0 : markAsProcessed st.queue item.id
      = .ok (st.queue.filter (fun it => it.id != item.id)) := by
    rw [markAsProcessed, hq]
  have hpp : processPair st item r = .ok
      (⟨st.queue.filter (fun it => it.id != item.id), st.db,
        Logger.emit st.debug LogLevel.log ("Item " ++ item.id ++ " pushed successfully") (Logger.emit st.debug LogLevel.error ("Failed to update local record " ++ item.tableName ++ ":" ++ item.recordId) st.log),
        st.debug⟩, true) := by
    simp only [processPair, hnoerr, hupd, stMarkProcessed]
    simp only [hmp0]
  refine ⟨⟨_, hpp, rfl, lookupQueue_filter_ne_self, ?_⟩, ?_⟩
  · cases hdbg : st.debug with
    | false =>
      refine ⟨[⟨LogLevel.error,
        "Failed to update local record " ++ item.tableName ++ ":" ++ item.recordId⟩],
        ?_,
        ⟨⟨LogLevel.error, "Failed to update local record " ++ item.tableName ++ ":" ++ item.recordId⟩,
          by simp, rfl⟩, ?_⟩
      · simp [Logger.emit, hdbg]
      · intro e he
        simp only [List.mem_singleton] at he
        rw [he]
        simp
    | true =>
      refine ⟨[⟨LogLevel.error,
        "Failed to update local record " ++ item.tableName ++ ":" ++ item.recordId⟩,
        ⟨LogLevel.log, "Item " ++ item.id ++ " pushed successfully"⟩],
        ?_,
        ⟨⟨LogLevel.error, "Failed to update local record " ++ item.tableName ++ ":" ++ item.recordId⟩,
          by simp, rfl⟩, ?_⟩
      · simp [Logger.emit, hdbg]
      · intro e he
        simp only [List.mem_cons, List.mem_singleton] at he
        rcases he with he | he | he
        · rw [he]; simp
        · rw [he]; simp
        · simp at he
  · rw [pushBatch, hapi]
    simp [processLoop, hpp]

/-- Claim C8, counterexample: on an absent local record the pipeline
does not log a warning — the concrete run appends a single entry to the
console output and that entry has error level, so no warning is ever
emitted (while the rest of the claimed behavior — no mutation, ack,
pushed count — does hold). -/
theorem c8_absent_record_logs_error_not_warning :
    let item0 : QueueItem :=
      { id := "i1", operation := SyncOperation.create, tableName := "posts"
        recordId := "p1", payload := [], retryCount := 0, errorMessage := none
        createdAt := 0, updatedAt := 0 }
    let st0 : PushState :=
      { queue := [item0], db := { tables := [("posts", [])], nextId := 0 }
        log := [], debug := false }
    let r0 : PushItemResult :=
      { recordId := "p1", serverId := some "s1", serverUpdatedAt := some 200
        error := none }
    recordFound st0.db "posts" "p1" = none ∧
    processPair st0 item0 r0
      = .ok ({ queue := [], db := st0.db
               log := [⟨LogLevel.error, "Failed to update local record posts:p1"⟩]
               debug := false }, true) ∧
    (∀ e ∈ [(⟨LogLevel.error, "Failed to update local record posts:p1"⟩ : LogEntry)],
      e.level ≠ LogLevel.warn) := by
  decide

/-- Claim C8 witness: a one-item batch whose target record is missing
still reports one pushed item. -/
theorem c8_absent_record_still_acked_witness :
    (pushBatch
      (fun _ => PushTransportResult.resp true
        [{ recordId := "p1", serverId := some "s1", serverUpdatedAt := some 200
           error := none }])
      { queue := [{ id := "i1", operation := SyncOperation.create, tableName := "posts"
                    recordId := "p1", payload := [], retryCount := 0, errorMessage := none
                    createdAt := 0, updatedAt := 0 }]
        db := { tables := [("posts", [])], nextId := 0 }, log := [], debug := true }
      [{ id := "i1", operation := SyncOperation.create, tableName := "posts"
         recordId := "p1", payload := [], retryCount := 0, errorMessage := none
         createdAt := 0, updatedAt := 0 }]).2.1 = 1 :=
  (c8_absent_record_still_acked
    (fun _ => PushTransportResult.resp true
      [{ recordId := "p1", serverId := some "s1", serverUpdatedAt := some 200
         error := none }])
    { queue := [{ id := "i1", operation := SyncOperation.create, tableName := "posts"
                  recordId := "p1", payload := [], retryCount := 0, errorMessage := none
                  createdAt := 0, updatedAt := 0 }]
      db := { tables := [("posts", [])], nextId := 0 }, log := [], debug := true }
    { id := "i1", operation := SyncOperation.create, tableName := "posts"
      recordId := "p1", payload := [], retryCount := 0, errorMessage := none
      createdAt := 0, updatedAt := 0 }
    { recordId := "p1", serverId := some "s1", serverUpdatedAt := some 200
      error := none }
    rfl (by decide) (by decide) rfl).2.1

/-! Watermark lemmas. -/

theorem decDigitChar_toNat {d : Nat} (h : d < 10) :
    (decDigitChar d).toNat - 48 = d := by
  interval_cases d <;> decide

theorem decDigitChar_isDigit {d : Nat} (h : d < 10) :
    (decDigitChar d).isDigit = true := by
  interval_cases d <;> decide

theorem decString_foldr (ds : List Nat) (h : ∀ d ∈ ds, d < 10) :
    ds.foldr (fun d acc => acc * 10 + ((decDigitChar d).toNat - 48)) 0
      = Nat.ofDigits 10 ds := by
  induction ds with
  | nil => simp [Nat.ofDigits]
  | cons d ds ih =>
    rw [List.foldr_cons, ih (fun x hx => h x (by simp [hx])), Nat.ofDigits_cons,
      decDigitChar_toNat (h d (by simp))]
    ring

theorem takeWhile_all {α} (p : α → Bool) :
    ∀ (l : List α), (∀ a ∈ l, p a = true) → l.takeWhile p = l := by
  intro l
  induction l with
  | nil => intro _; rfl
  | cons a l ih =>
    intro h
    rw [List.takeWhile_cons, h a (by simp), if_pos rfl,
      ih (fun x hx => h x (by simp [hx]))]

theorem parseIntDec_natToDecString (n : Nat) :
    parseIntDec (natToDecString n) = some n := by
  rcases Nat.eq_zero_or_pos n with h0 | hpos
  · subst h0
    decide
  · have hne : n ≠ 0 := Nat.pos_iff_ne_zero.mp hpos
    rw [natToDecString, if_neg hne, parseIntDec]
    have hdig : ∀ c ∈ ((Nat.digits 10 n).map decDigitChar).reverse, c.isDigit = true := by
      intro c hc
      rw [List.mem_reverse] at hc
      obtain ⟨d, hd, rfl⟩ := List.mem_map.mp hc
      exact decDigitChar_isDigit (Nat.digits_lt_base (by norm_num) hd)
    have hdata : (String.mk (((Nat.digits 10 n).map decDigitChar).reverse)).data
        = ((Nat.digits 10 n).map decDigitChar).reverse := rfl
    rw [hdata, takeWhile_all _ _ hdig]
    have hne' : ((Nat.digits 10 n).map decDigitChar).reverse ≠ [] := by
      simp [Nat.digits_ne_nil_iff_ne_zero, hne]
    rw [if_neg (by simpa using hne')]
    rw [List.foldl_reverse, List.foldr_map]
    rw [decString_foldr _ (fun d hd => Nat.digits_lt_base (by norm_num) hd)]
    rw [Nat.ofDigits_digits]

theorem natToDecString_ne_empty (n : Nat) : natToDecString n ≠ "" := by
  rcases Nat.eq_zero_or_pos n with h0 | hpos
  · subst h0; decide
  · have hne : n ≠ 0 := Nat.pos_iff_ne_zero.mp hpos
    rw [natToDecString, if_neg hne]
    intro h
    have hd := congrArg String.data h
    have hne' : ((Nat.digits 10 n).map decDigitChar).reverse ≠ [] := by
      simp [Nat.digits_ne_nil_iff_ne_zero, hne]
    exact hne' hd

theorem kvGet_kvSet_self : ∀ (kv : KVStore) (k v : String),
    kvGet (kvSet kv k v) k = some v := by
  intro kv k v
  induction kv with
  | nil => simp [kvSet, kvGet, List.find?]
  | cons e rest ih =>
    rw [kvSet]
    by_cases he : e.1 = k
    · rw [if_pos (by simp [List.any_cons, he])]
      rw [kvGet, List.map_cons, List.find?_cons_of_pos _ (by simp [he])]
      simp [he]
    · cases hany : rest.any (fun p => p.1 = k) with
      | true =>
        rw [if_pos (by simp [List.any_cons, hany])]
        rw [kvGet, List.map_cons, List.find?_cons_of_neg _ (by simp [he])]
        have ih' := ih
        rw [kvSet, if_pos (by simp [hany])] at ih'
        simpa [kvGet] using ih'
      | false =>
        rw [if_neg (by simp [List.any_cons, he, hany])]
        rw [kvGet, List.cons_append, List.find?_cons_of_neg _ (by simp [he])]
        have ih' := ih
        rw [kvSet, if_neg (by simp [hany])] at ih'
        simpa [kvGet] using ih'

/-- Claim C7: after a successful pull whose response carries timestamp
`T`, the stored watermark under the well-known key is the decimal
string of `T`, that string parses back to `T` (so the stored watermark
equals `T`), and the request of a subsequent pull carries
`lastSyncAt = T`. -/
theorem c7_watermark_roundtrip
    (api : PullPayload → PullResponse) (resolver : ConflictContext → Resolution)
    (tables : List String) (now : Nat) (kv : KVStore) (db : DB)
    (n : Nat) (kv' : KVStore) (db' : DB)
    (h : pull api resolver tables now kv db = .ok (n, kv', db')) :
    kvGet kv' LAST_SYNC_KEY
      = some (natToDecString ((api (mkPullPayload kv tables)).timestamp)) ∧
    getLastSyncTimestamp kv' = some ((api (mkPullPayload kv tables)).timestamp) ∧
    mkPullPayload kv' tables
      = ⟨some ((api (mkPullPayload kv tables)).timestamp), tables⟩ := by
  rw [pull] at h
  cases hgo : pullGo resolver now db (api (mkPullPayload kv tables)).changes with
  | error e => rw [hgo] at h; cases h
  | ok p =>
    rcases p with ⟨db₀, cnt⟩
    rw [hgo] at h
    simp only [Except.ok.injEq, Prod.mk.injEq] at h
    obtain ⟨hcnt, hkv, hdb⟩ := h
    subst hkv
    have h1 : kvGet (setLastSyncTimestamp kv ((api (mkPullPayload kv tables)).timestamp)) LAST_SYNC_KEY
        = some (natToDecString ((api (mkPullPayload kv tables)).timestamp)) := by
      rw [setLastSyncTimestamp]
      exact kvGet_kvSet_self kv _ _
    have h2 : getLastSyncTimestamp (setLastSyncTimestamp kv ((api (mkPullPayload kv tables)).timestamp))
        = some ((api (mkPullPayload kv tables)).timestamp) := by
      rw [getLastSyncTimestamp, h1]
      show (if natToDecString ((api (mkPullPayload kv tables)).timestamp) = ""
          then none
          else parseIntDec (natToDecString ((api (mkPullPayload kv tables)).timestamp)))
        = some ((api (mkPullPayload kv tables)).timestamp)
      rw [if_neg (natToDecString_ne_empty ((api (mkPullPayload kv tables)).timestamp))]
      exact parseIntDec_natToDecString _
    refine ⟨h1, h2, ?_⟩
    rw [mkPullPayload, h2]

/-- Claim C7 witness: a pull against a server whose response is empty
with timestamp 1700 leaves a watermark that reads back as 1700. -/
theorem c7_watermark_roundtrip_witness :
    getLastSyncTimestamp [(LAST_SYNC_KEY, natToDecString 1700)] = some 1700 :=
  (c7_watermark_roundtrip (fun _ => ⟨1700, []⟩) (fun _ => Resolution.keepLocal)
    ["posts"] 0 [] ⟨[], 0⟩ 0 [(LAST_SYNC_KEY, natToDecString 1700)] ⟨[], 0⟩ rfl).2.1

/-! Pull counting lemmas. -/

theorem foldl_setField_isDeleted :
    ∀ (fs : List (String × Value)) (r : LocalRecord),
      (fs.foldl (fun acc kv =>
        { acc with fields := setField acc.fields (camelToSnake kv.1) kv.2 }) r).isDeleted
        = r.isDeleted := by
  intro fs
  induction fs with
  | nil => intro r; rfl
  | cons kv fs ih =>
    intro r
    rw [List.foldl_cons, ih]

theorem applyServerData_isDeleted (r : LocalRecord) (sd : ServerData) (now : Nat) :
    (applyServerData r sd now).isDeleted = r.isDeleted := by
  rw [applyServerData]
  exact foldl_setField_isDeleted sd.fields r

theorem updateRecord_isDeleted (resolver : ConflictContext → Resolution)
    (l : LocalRecord) (sd : ServerData) (now : Nat) :
    (updateRecord resolver l sd now).1.isDeleted = l.isDeleted := by
  rw [updateRecord]
  cases hb : hasConflict l sd with
  | false => simp [applyServerData_isDeleted]
  | true =>
    simp only [if_pos rfl]
    cases resolver (mkConflictContext l sd) with
    | keepLocal => rfl
    | keepServer => exact applyServerData_isDeleted l sd now
    | merged m => exact applyServerData_isDeleted l m now

theorem countDeleted_cons (r : LocalRecord) (tbl : List LocalRecord) :
    countDeleted (r :: tbl)
      = (if r.isDeleted then 1 else 0) + countDeleted tbl := by
  rw [countDeleted, countDeleted, List.filter_cons]
  cases hr : r.isDeleted <;> simp [hr] <;> omega

theorem countDeleted_replaceRecord (old new : LocalRecord)
    (hflag : new.isDeleted = old.isDeleted) :
    ∀ (tbl : List LocalRecord),
      countDeleted (replaceRecord old new tbl) = countDeleted tbl := by
  intro tbl
  induction tbl with
  | nil => rfl
  | cons r rest ih =>
    rw [replaceRecord]
    by_cases hr : r = old
    · rw [if_pos hr, countDeleted_cons, countDeleted_cons, hflag, hr]
    · rw [if_neg hr, countDeleted_cons, countDeleted_cons, ih]

theorem countDeleted_append_single (tbl : List LocalRecord) (r : LocalRecord) :
    countDeleted (tbl ++ [r])
      = countDeleted tbl + (if r.isDeleted then 1 else 0) := by
  rw [countDeleted, countDeleted, List.filter_append]
  cases hr : r.isDeleted <;> simp [List.filter_cons, hr]

theorem applyCreatedGo_countDeleted (resolver : ConflictContext → Resolution)
    (now : Nat) (table : String) :
    ∀ (records : List ServerData) (tbl : List LocalRecord) (nid : Nat),
      countDeleted (applyCreatedGo resolver now table tbl nid records).1
        = countDeleted tbl := by
  intro records
  induction records with
  | nil => intro tbl nid; rfl
  | cons sd rest ih =>
    intro tbl nid
    rw [applyCreatedGo]
    cases hq : queryByServerId tbl sd.id with
    | cons r0 rs =>
      rw [ih]
      have hflag : (updateRecord resolver r0 sd now).1.isDeleted = r0.isDeleted :=
        updateRecord_isDeleted resolver r0 sd now
      exact countDeleted_replaceRecord r0 _ hflag tbl
    | nil =>
      rw [ih, countDeleted_append_single]
      have : (applyServerData (freshLocalRecord table nid) sd now).isDeleted = false :=
        applyServerData_isDeleted _ sd now
      rw [this]
      simp

theorem applyUpdatedGo_spec (resolver : ConflictContext → Resolution)
    (now : Nat) (table : String) :
    ∀ (records : List ServerData) (tbl : List LocalRecord) (nid : Nat),
      (applyUpdatedGo resolver now table tbl nid records).2.2 = records.length ∧
      countDeleted (applyUpdatedGo resolver now table tbl nid records).1
        = countDeleted tbl := by
  intro records
  induction records with
  | nil => intro tbl nid; exact ⟨rfl, rfl⟩
  | cons sd rest ih =>
    intro tbl nid
    rw [applyUpdatedGo]
    cases hq : queryByServerId tbl sd.id with
    | cons r0 rs =>
      obtain ⟨ihc, ihd⟩ := ih (replaceRecord r0 (updateRecord resolver r0 sd now).1 tbl) nid
      refine ⟨?_, ?_⟩
      · show (applyUpdatedGo resolver now table
            (replaceRecord r0 (updateRecord resolver r0 sd now).1 tbl) nid rest).2.2 + 1
          = rest.length + 1
        rw [ihc]
      · show countDeleted (applyUpdatedGo resolver now table
            (replaceRecord r0 (updateRecord resolver r0 sd now).1 tbl) nid rest).1
          = countDeleted tbl
        rw [ihd]
        exact countDeleted_replaceRecord r0 _ (updateRecord_isDeleted resolver r0 sd now) tbl
    | nil =>
      obtain ⟨ihc, ihd⟩ := ih
        (tbl ++ [applyServerData (freshLocalRecord table nid) sd now]) (nid + 1)
      refine ⟨?_, ?_⟩
      · show (applyUpdatedGo resolver now table
            (tbl ++ [applyServerData (freshLocalRecord table nid) sd now]) (nid + 1) rest).2.2 + 1
          = rest.length + 1
        rw [ihc]
      · show countDeleted (applyUpdatedGo resolver now table
            (tbl ++ [applyServerData (freshLocalRecord table nid) sd now]) (nid + 1) rest).1
          = countDeleted tbl
        rw [ihd, countDeleted_append_single,
          applyServerData_isDeleted (freshLocalRecord table nid) sd now]
        simp [freshLocalRecord]

theorem countDeleted_markDeleted (tbl : List LocalRecord) (sid : String) :
    countDeleted (markDeletedByServerId tbl sid)
      = countDeleted tbl + (queryByServerId tbl sid).length := by
  induction tbl with
  | nil => rfl
  | cons r rest ih =>
    cases hcond : (!r.isDeleted && r.server_id == some sid) with
    | true =>
      have hrd : r.isDeleted = false := by
        rcases Bool.and_eq_true_iff.mp hcond with ⟨h1, _⟩
        simpa using h1
      have hm : markDeletedByServerId (r :: rest) sid
          = { r with isDeleted := true } :: markDeletedByServerId rest sid := by
        rw [markDeletedByServerId, List.map_cons, if_pos hcond]
        rfl
      have hq : queryByServerId (r :: rest) sid = r :: queryByServerId rest sid := by
        rw [queryByServerId, List.filter_cons, if_pos hcond]
        rfl
      rw [hm, hq, countDeleted_cons, countDeleted_cons, ih, List.length_cons]
      simp [hrd]
      omega
    | false =>
      have hm : markDeletedByServerId (r :: rest) sid
          = r :: markDeletedByServerId rest sid := by
        rw [markDeletedByServerId, List.map_cons, if_neg (by simp [hcond])]
        rfl
      have hq : queryByServerId (r :: rest) sid = queryByServerId rest sid := by
        rw [queryByServerId, List.filter_cons, if_neg (by simp [hcond])]
        rfl
      rw [hm, hq, countDeleted_cons, countDeleted_cons, ih]
      omega

theorem applyDeletedGo_count :
    ∀ (ids : List String) (tbl : List LocalRecord),
      (applyDeletedGo tbl ids).2 + countDeleted tbl
        = countDeleted (applyDeletedGo tbl ids).1 := by
  intro ids
  induction ids with
  | nil => intro tbl; simp [applyDeletedGo]
  | cons sid rest ih =>
    intro tbl
    rw [applyDeletedGo]
    cases hrec : applyDeletedGo (markDeletedByServerId tbl sid) rest with
    | mk tbl' c =>
      have ih' := ih (markDeletedByServerId tbl sid)
      rw [hrec] at ih'
      have ih2 : c + countDeleted (markDeletedByServerId tbl sid) = countDeleted tbl' := ih'
      have hmark := countDeleted_markDeleted tbl sid
      show c + (queryByServerId tbl sid).length + countDeleted tbl = countDeleted tbl'
      omega

theorem setTableGo_deleted :
    ∀ (ts : List (String × List LocalRecord)) (name : String)
      (tbl tblNew : List LocalRecord),
      (ts.find? (fun t => t.1 = name)).map (fun t => t.2) = some tbl →
      ((setTableGo name tblNew ts).map (fun t => countDeleted t.2)).sum + countDeleted tbl
        = (ts.map (fun t => countDeleted t.2)).sum + countDeleted tblNew := by
  intro ts
  induction ts with
  | nil => intro name tbl tblNew h; simp [List.find?] at h
  | cons e rest ih =>
    intro name tbl tblNew h
    by_cases he : e.1 = name
    · rw [List.find?_cons_of_pos _ (by simp [he])] at h
      have h2 : e.2 = tbl := by simpa using h
      subst h2
      rw [setTableGo, if_pos he]
      simp only [List.map_cons, List.sum_cons]
      omega
    · rw [List.find?_cons_of_neg _ (by simp [he])] at h
      rw [setTableGo, if_neg he]
      simp only [List.map_cons, List.sum_cons]
      have := ih name tbl tblNew h
      omega

theorem applyTableTo_count (resolver : ConflictContext → Resolution) (now : Nat)
    (db : DB) (tname : String) (ch : TableChanges) (tbl : List LocalRecord)
    (db₂ : DB) (c : Nat)
    (hgt : getTable db tname = some tbl)
    (h : applyTableTo resolver now db tname ch tbl = (db₂, c)) :
    c + deletedCountDB db
      = ch.created.length + ch.updated.length + deletedCountDB db₂ := by
  rcases hc : applyCreatedGo resolver now tname tbl db.nextId ch.created with ⟨tbl1, nid1⟩
  rcases hu : applyUpdatedGo resolver now tname tbl1 nid1 ch.updated with ⟨tbl2, nid2, cU⟩
  rcases hd : applyDeletedGo tbl2 ch.deleted with ⟨tbl3, cD⟩
  rw [applyTableTo] at h
  simp only [hc, hu, hd, Prod.mk.injEq] at h
  obtain ⟨hdb, hcnt⟩ := h
  subst hdb
  subst hcnt
  have hA : countDeleted tbl1 = countDeleted tbl := by
    have h0 := applyCreatedGo_countDeleted resolver now tname ch.created tbl db.nextId
    rw [hc] at h0
    exact h0
  have hB := applyUpdatedGo_spec resolver now tname ch.updated tbl1 nid1
  rw [hu] at hB
  have hBc : cU = ch.updated.length := hB.1
  have hBd : countDeleted tbl2 = countDeleted tbl1 := hB.2
  have hC : cD + countDeleted tbl2 = countDeleted tbl3 := by
    have h0 := applyDeletedGo_count ch.deleted tbl2
    rw [hd] at h0
    exact h0
  have hgt' : (db.tables.find? (fun t => t.1 = tname)).map (fun t => t.2) = some tbl := by
    rw [getTable] at hgt
    exact hgt
  have hD := setTableGo_deleted db.tables tname tbl tbl3 hgt'
  have hdbEq : deletedCountDB (setTable { db with nextId := nid2 } tname tbl3)
      = ((setTableGo tname tbl3 db.tables).map (fun t => countDeleted t.2)).sum := rfl
  have hdbEq0 : deletedCountDB db = (db.tables.map (fun t => countDeleted t.2)).sum := rfl
  simp only [hdbEq, hdbEq0]
  simp only [hdbEq0] at hD
  omega

theorem pullGo_count (resolver : ConflictContext → Resolution) (now : Nat) :
    ∀ (chs : List (String × TableChanges)) (db db' : DB) (n : Nat),
      pullGo resolver now db chs = .ok (db', n) →
      n + deletedCountDB db = totalCreatedUpdated chs + deletedCountDB db' := by
  intro chs
  induction chs with
  | nil =>
    intro db db' n h
    rw [pullGo] at h
    simp only [Except.ok.injEq, Prod.mk.injEq] at h
    obtain ⟨h1, h2⟩ := h
    subst h1
    subst h2
    have hT : totalCreatedUpdated ([] : List (String × TableChanges)) = 0 := rfl
    omega
  | cons e rest ih =>
    intro db db' n h
    rcases e with ⟨tn, ch⟩
    rw [pullGo] at h
    split at h
    · cases h
    · rename_i db1 c hat
      split at h
      · cases h
      · rename_i db2 total hgo
        simp only [Except.ok.injEq, Prod.mk.injEq] at h
        obtain ⟨h1, h3⟩ := h
        subst h1
        subst h3
        have hAtbl : ∃ tbl, getTable db tn = some tbl ∧
            applyTableTo resolver now db tn ch tbl = (db1, c) := by
          rw [applyTable] at hat
          cases hgt : getTable db tn with
          | none => rw [hgt] at hat; cases hat
          | some tbl =>
            rw [hgt] at hat
            simp only [Except.ok.injEq] at hat
            exact ⟨tbl, rfl, hat⟩
        obtain ⟨tbl, hgt, hto⟩ := hAtbl
        have hA := applyTableTo_count resolver now db tn ch tbl db1 c hgt hto
        have hB := ih db1 db2 total hgo
        have hT : totalCreatedUpdated ((tn, ch) :: rest)
            = ch.created.length + ch.updated.length + totalCreatedUpdated rest := by
          rw [totalCreatedUpdated, totalCreatedUpdated, List.map_cons, List.sum_cons]
        omega

/-- Claim C6, counterexample: a deleted stanza entry does not
contribute exactly one to `pulled` — one listed server id matching two
local records contributes two, so a pull whose only stanza entry is one
deletion reports `pulled = 2` while the total number of stanza entries
is 1. -/
theorem c6_deleted_entry_counts_per_matching_record :
    let r1 : LocalRecord :=
      { id := "a", table := "posts", server_id := some "s1"
        server_updated_at := some 100, sync_status := some "synced"
        last_sync_error := none, updated_at := 0, isDeleted := false, fields := [] }
    let r2 : LocalRecord :=
      { id := "b", table := "posts", server_id := some "s1"
        server_updated_at := some 100, sync_status := some "synced"
        last_sync_error := none, updated_at := 0, isDeleted := false, fields := [] }
    let db0 : DB := { tables := [("posts", [r1, r2])], nextId := 0 }
    let api0 : PullPayload → PullResponse := fun _ =>
      { timestamp := 1700
        changes := [("posts", { created := [], updated := [], deleted := ["s1"] })] }
    (pull api0 (fun _ => Resolution.keepServer) ["posts"] 50 [] db0).toOption.map
        (fun x => x.1) = some 2 ∧
    totalStanzaEntries ((api0 (mkPullPayload [] ["posts"])).changes) = 1 ∧
    (2 : Nat) ≠ 1 := by
  decide

/-- Claim C6, amended: for every successful `pull()`, the `pulled`
count equals the number of created entries plus the number of updated
entries (each contributing one, including entries whose conflict
resolved to "keep local") plus one per local record soft-deleted by the
deleted stanzas — i.e. the growth of the database's tombstone count —
rather than one per deleted entry. -/
theorem c6_pulled_count_decomposition
    (api : PullPayload → PullResponse) (resolver : ConflictContext → Resolution)
    (tables : List String) (now : Nat) (kv : KVStore) (db : DB)
    (n : Nat) (kv' : KVStore) (db' : DB)
    (h : pull api resolver tables now kv db = .ok (n, kv', db')) :
    n + deletedCountDB db
      = totalCreatedUpdated ((api (mkPullPayload kv tables)).changes)
        + deletedCountDB db' := by
  rw [pull] at h
  cases hgo : pullGo resolver now db (api (mkPullPayload kv tables)).changes with
  | error e => rw [hgo] at h; cases h
  | ok p =>
    rcases p with ⟨db₀, cnt⟩
    rw [hgo] at h
    simp only [Except.ok.injEq, Prod.mk.injEq] at h
    obtain ⟨h1, h2, h3⟩ := h
    subst h1
    subst h3
    exact pullGo_count resolver now _ db _ _ hgo

/-- Claim C6 witness: a pull creating one record in an empty table
reports `pulled = 1` and leaves the tombstone count unchanged. -/
theorem c6_pulled_count_decomposition_witness :
    (1 : Nat) + deletedCountDB { tables := [("posts", [])], nextId := 0 }
      = totalCreatedUpdated
          [("posts",
            { created := [{ id := "s1", updated_at := some 5, fields := [] }]
              updated := [], deleted := [] })]
        + deletedCountDB
          { tables := [("posts",
              [{ id := "local-0", table := "posts", server_id := some "s1"
                 server_updated_at := some 5, sync_status := some "synced"
                 last_sync_error := none, updated_at := 0, isDeleted := false
                 fields := [] }])]
            nextId := 1 } :=
  c6_pulled_count_decomposition
    (fun _ =>
      { timestamp := 10
        changes := [("posts",
          { created := [{ id := "s1", updated_at := some 5, fields := [] }]
            updated := [], deleted := [] })] })
    (fun _ => Resolution.keepLocal) ["posts"] 50 [] { tables := [("posts", [])], nextId := 0 }
    1 [(LAST_SYNC_KEY, natToDecString 10)]
    { tables := [("posts",
        [{ id := "local-0", table := "posts", server_id := some "s1"
           server_updated_at := some 5, sync_status := some "synced"
           last_sync_error := none, updated_at := 0, isDeleted := false
           fields := [] }])]
      nextId := 1 }
    rfl

/-! Claim C3. -/

/-- Claim C3, counterexample: the conflict test uses JavaScript
truthiness, so a local record whose `server_updated_at` is set to `0`
is treated as having no known server timestamp.  At this input the
claim's condition holds (status pending, `server_updated_at` set,
`5 > 0`), yet the resolver is never invoked (the context trace is
empty) and the record is overwritten with the server data even though
the supplied resolver would have answered `'local'`. -/
theorem c3_zero_timestamp_no_conflict :
    let l0 : LocalRecord :=
      { id := "r1", table := "posts", server_id := some "s1"
        server_updated_at := some 0, sync_status := some "pending"
        last_sync_error := none, updated_at := 400, isDeleted := false
        fields := [] }
    let sd0 : ServerData := { id := "s1", updated_at := some 5, fields := [] }
    (l0.sync_status = some "pending" ∧ l0.server_updated_at = some 0 ∧ (0 : Nat) < 5) ∧
    (updateRecord (fun _ => Resolution.keepLocal) l0 sd0 7).2 = [] ∧
    (updateRecord (fun _ => Resolution.keepLocal) l0 sd0 7).1 ≠ l0 := by
  decide

/-- Claim C3, amended: a conflict is detected iff
`local.sync_status = 'pending'`, `local.server_updated_at` is set to a
nonzero value, and `S.updated_at > local.server_updated_at`; in that
case the resolver is invoked exactly once with the constructed
`ConflictContext`, and its verdict is applied (`'local'` keeps the
record, `'server'` overwrites it from `S`, a merged mapping overwrites
it from that mapping); with no conflict the record is overwritten with
`S`'s fields and sync metadata. -/
theorem c3_conflict_detection_and_resolution
    (resolver : ConflictContext → Resolution) (l : LocalRecord)
    (sd : ServerData) (now : Nat) :
    (hasConflict l sd = true ↔ specAmendedConflict l sd) ∧
    (specAmendedConflict l sd →
      updateRecord resolver l sd now
        = ((match resolver (mkConflictContext l sd) with
            | .keepLocal => l
            | .keepServer => applyServerData l sd now
            | .merged m => applyServerData l m now),
           [mkConflictContext l sd])) ∧
    (¬ specAmendedConflict l sd →
      updateRecord resolver l sd now = (applyServerData l sd now, [])) := by
  have hiff : hasConflict l sd = true ↔ specAmendedConflict l sd := by
    rw [hasConflict, specAmendedConflict]
    cases hsu : l.server_updated_at with
    | none => simp [jsTruthyNum, hsu]
    | some v =>
      cases hup : sd.updated_at with
      | none => simp [jsTruthyNum, jsGtOptNat, hsu, hup]
      | some u =>
        simp [jsTruthyNum, jsGtOptNat, hsu, hup, Bool.and_eq_true, beq_iff_eq,
          and_assoc]
  refine ⟨hiff, ?_, ?_⟩
  · intro hs
    have hb : hasConflict l sd = true := hiff.mpr hs
    rw [updateRecord, if_pos hb]
    show (match resolver (mkConflictContext l sd) with
        | Resolution.keepLocal => (l, [mkConflictContext l sd])
        | Resolution.keepServer => (applyServerData l sd now, [mkConflictContext l sd])
        | Resolution.merged m => (applyServerData l m now, [mkConflictContext l sd]))
      = _
    cases resolver (mkConflictContext l sd) <;> rfl
  · intro hs
    have hb : ¬ hasConflict l sd = true := fun hb => hs (hiff.mp hb)
    rw [updateRecord, if_neg hb]

/-- Claim C3 witness: a genuinely conflicting record (pending local
edit, known server timestamp 1000, incoming server version 3000) with a
client-wins resolver: the resolver's context is recorded once and the
local record is kept. -/
theorem c3_conflict_detection_and_resolution_witness :
    updateRecord (fun _ => Resolution.keepLocal)
      { id := "r1", table := "posts", server_id := some "s1"
        server_updated_at := some 1000, sync_status := some "pending"
        last_sync_error := none, updated_at := 5000, isDeleted := false
        fields := [] }
      { id := "s1", updated_at := some 3000
        fields := [("title", Value.str "Server")] } 9
      = ({ id := "r1", table := "posts", server_id := some "s1"
           server_updated_at := some 1000, sync_status := some "pending"
           last_sync_error := none, updated_at := 5000, isDeleted := false
           fields := [] },
         [mkConflictContext
           { id := "r1", table := "posts", server_id := some "s1"
             server_updated_at := some 1000, sync_status := some "pending"
             last_sync_error := none, updated_at := 5000, isDeleted := false
             fields := [] }
           { id := "s1", updated_at := some 3000
             fields := [("title", Value.str "Server")] }]) :=
  (c3_conflict_detection_and_resolution (fun _ => Resolution.keepLocal)
    { id := "r1", table := "posts", server_id := some "s1"
      server_updated_at := some 1000, sync_status := some "pending"
      last_sync_error := none, updated_at := 5000, isDeleted := false
      fields := [] }
    { id := "s1", updated_at := some 3000
      fields := [("title", Value.str "Server")] } 9).2.1
    ⟨rfl, 1000, rfl, by decide, 3000, rfl, by decide⟩

/-! ### Claims C1, C2, C5, C10 -/

/-- Claim C1 (code bug): a `sync()` call made while `is_syncing` is true
does return `success=false` with the AlreadyInProgress error and invokes
neither transport, but it is NOT side-effect free: the shared `catch`
block runs `updateState`, which sets `status` to `error`, resets
`is_syncing` to `false` (disarming the concurrency guard of the sync
still in flight) and stores the error, and the listeners are notified
once.  The theorem evaluates the model at the failing input: an engine
whose state was put into `syncing` by an in-flight sync. -/
theorem c1_busy_sync_clobbers_state :
    busySyncRun.result.success = false ∧
    busySyncRun.result.error = some "Sync already in progress" ∧
    busySyncRun.pushInvoked = false ∧
    busySyncRun.pullInvoked = false ∧
    (currentState busySyncRun.heap).isSyncing = false ∧
    (currentState busySyncRun.heap).status = SyncStatus.error ∧
    busySyncRun.heap.notifs.length = busyEngineHeap.notifs.length + 1 ∧
    currentState busySyncRun.heap ≠ currentState busyEngineHeap := by
  decide

/-- Claim C2, counterexample: a call made while the device is offline
does not always return the Offline error — if a sync is already in
progress, the first guard fires and the caller receives the
AlreadyInProgress error instead (transports are still not invoked). -/
theorem c2_busy_offline_gets_already_in_progress :
    let hBusy := updateState initialEngineHeap
      { status := some .syncing, isSyncing := some true, error := some none }
    let out := sync hBusy ⟨false, .ok (0, 0), .ok 0, 0⟩ 100 110
    out.result.success = false ∧
    out.pushInvoked = false ∧
    out.pullInvoked = false ∧
    out.result.error ≠ some "Device is offline" ∧
    out.result.error = some "Sync already in progress" := by
  decide

/-- Claim C2, amended: on every offline call neither pipeline (hence
neither transport) is invoked and the call returns `success=false`
without throwing; when no sync is already in progress the error is the
Offline error `"Device is offline"` (otherwise the AlreadyInProgress
error takes precedence).  Errors thrown inside the attempt by the push
or pull pipeline are likewise captured and returned as
`success=false` with that error. -/
theorem c2_offline_no_transport (h : EngineHeap) (inp : SyncRunInput) (t0 t1 : Nat) :
    (inp.online = false →
      (sync h inp t0 t1).pushInvoked = false ∧
      (sync h inp t0 t1).pullInvoked = false ∧
      (sync h inp t0 t1).result.success = false) ∧
    (inp.online = false → (currentState h).isSyncing = false →
      (sync h inp t0 t1).result.error = some "Device is offline") ∧
    (∀ e, (currentState h).isSyncing = false → inp.online = true →
      inp.pushResult = .error e →
      (sync h inp t0 t1).result = ⟨false, ⟨0, 0, 0, t1 - t0⟩, some e⟩) ∧
    (∀ e p, (currentState h).isSyncing = false → inp.online = true →
      inp.pushResult = .ok p → inp.pullResult = .error e →
      (sync h inp t0 t1).result = ⟨false, ⟨0, 0, 0, t1 - t0⟩, some e⟩) := by
  refine ⟨?_, ?_, ?_, ?_⟩
  · intro hoff
    by_cases hs : (currentState h).isSyncing
    · simp [sync, hs, syncCatch]
    · simp [sync, hs, hoff, syncCatch]
  · intro hoff hs
    simp [sync, hs, hoff, syncCatch]
  · intro e hs hon hpush
    simp [sync, hs, hon, hpush, syncCatch]
  · intro e p hs hon hpush hpull
    obtain ⟨p1, p2⟩ := p
    simp [sync, hs, hon, hpush, hpull, syncCatch]

/-- Claim C2 witness: a concrete offline call on an idle engine. -/
theorem c2_offline_no_transport_witness :
    (sync initialEngineHeap ⟨false, .ok (0, 0), .ok 0, 0⟩ 5 9).result.error
      = some "Device is offline" :=
  (c2_offline_no_transport initialEngineHeap ⟨false, .ok (0, 0), .ok 0, 0⟩ 5 9).2.1
    rfl rfl

/-- Claim C5, counterexample: listeners do not receive a defensive copy.
During a successful sync on an engine with 2 pending changes, the
`syncing` notification hands out the state object allocated by
`updateState` (heap index 1); `updatePendingCount` later mutates that
very object in place (to pending count 0) without emitting any
notification, so the value the listener received has changed after the
fact, and the mutation itself produced no notification (only indices 1
and 2 are ever notified). -/
theorem c5_listener_object_mutated_in_place :
    let h0 := updatePendingCount initialEngineHeap 2
    let hMid := updateState h0
      { status := some .syncing, isSyncing := some true, error := some none }
    let out := sync h0 ⟨true, .ok (2, 0), .ok 0, 0⟩ 100 110
    out.heap.notifs = [1, 2] ∧
    (hMid.objAt 1).pendingChanges = 2 ∧
    (out.heap.objAt 1).pendingChanges = 0 ∧
    out.heap.objAt 1 ≠ hMid.objAt 1 := by
  decide

/-- Claim C5, amended: every `updateState` call allocates a fresh state
object, notifies the listeners exactly once with a reference to that
(live) object, and never mutates previously allocated objects — so a
value handed to a listener is insulated from later `updateState`
calls.  Refreshing `pending_changes` (`updatePendingCount`), however,
mutates the current state object in place and does not notify: it is a
state mutation without a notification, and it can alter the object a
listener already received (when that object is still current). -/
theorem c5_notification_discipline (h : EngineHeap) (u : StateUpdate) (c i : Nat) :
    (i < h.objs.length → (updateState h u).objAt i = h.objAt i) ∧
    ((updateState h u).notifs = h.notifs ++ [(updateState h u).cur]) ∧
    ((updatePendingCount h c).notifs = h.notifs) ∧
    (i ≠ h.cur → (updatePendingCount h c).objAt i = h.objAt i) ∧
    (h.cur < h.objs.length →
      (updatePendingCount h c).objAt h.cur
        = { h.objAt h.cur with pendingChanges := c }) := by
  refine ⟨?_, rfl, rfl, ?_, ?_⟩
  · intro hi
    simp [updateState, EngineHeap.objAt, List.getElem?_append, hi]
  · intro hne
    simp [updatePendingCount, EngineHeap.objAt,
      List.getElem?_set_ne (Ne.symm hne)]
  · intro hlt
    simp [updatePendingCount, EngineHeap.objAt, currentState,
      List.getElem?_set_self' , List.getElem?_eq_getElem hlt]

/-- Claim C5 witness: the amended discipline at a concrete heap. -/
theorem c5_notification_discipline_witness :
    (updateState initialEngineHeap { pendingChanges := some 7 }).objAt 0
      = initialEngineHeap.objAt 0 ∧
    (updatePendingCount initialEngineHeap 3).objAt 1
      = initialEngineHeap.objAt 1 ∧
    (updatePendingCount initialEngineHeap 3).objAt 0
      = { initialEngineHeap.objAt 0 with pendingChanges := 3 } :=
  ⟨(c5_notification_discipline initialEngineHeap { pendingChanges := some 7 } 3 0).1
      (by decide),
   (c5_notification_discipline initialEngineHeap { pendingChanges := some 7 } 3 1).2.2.2.1
      (by decide),
   (c5_notification_discipline initialEngineHeap { pendingChanges := some 7 } 3 0).2.2.2.2
      (by decide)⟩

/-- Claim C10: before `NetworkDetector.initialize()` has run, the
detector's status is the constructor value
`isConnected=false, isInternetReachable=null`, for which `isOnline()`
returns `false`; consequently a `sync()` on a freshly constructed
engine whose detector is uninitialized fails with the Offline error and
invokes neither pipeline (hence neither transport). -/
theorem c10_uninitialized_detector_sync_offline :
    isOnline initialNetworkStatus = false ∧
    ∀ (pr : Except String (Nat × Nat)) (pl : Except String Nat) (pc t0 t1 : Nat),
      (sync initialEngineHeap ⟨isOnline initialNetworkStatus, pr, pl, pc⟩ t0 t1).result.success = false ∧
      (sync initialEngineHeap ⟨isOnline initialNetworkStatus, pr, pl, pc⟩ t0 t1).result.error
        = some "Device is offline" ∧
      (sync initialEngineHeap ⟨isOnline initialNetworkStatus, pr, pl, pc⟩ t0 t1).pushInvoked = false ∧
      (sync initialEngineHeap ⟨isOnline initialNetworkStatus, pr, pl, pc⟩ t0 t1).pullInvoked = false := by
  refine ⟨rfl, ?_⟩
  intro pr pl pc t0 t1
  refine ⟨?_, ?_, ?_, ?_⟩ <;>
    simp [sync, currentState, EngineHeap.objAt, initialEngineHeap,
      initialEngineState, isOnline, initialNetworkStatus, syncCatch]

end OfflineSync
